import Mathlib

/-!
# Verification of the recipe-recommendation pipeline

A shallow embedding, in Lean 4, of the retrieval–filter–rerank pipeline and
its conversation orchestrator (`api_agent.py`, `dietary_agent.py`,
`conversational_agent.py`, `models.py`).

Modelling conventions:

* Python strings are modelled as `List Char` (`Str`).
* Python floats are modelled over an arbitrary linear ordered field `K`
  (instantiated at `ℚ` in concrete witnesses).  The transcendental functions
  used by the code (`math.log`, `math.sqrt`) are passed in as parameters of
  the embedding (`mlog`, `msqrt`): every property proved here holds for any
  interpretation of them, in particular for the real `log`/`sqrt`.
* Python `set`s are modelled as `Finset Str`.
* Network-dependent collaborators (the HTTP providers, the OpenAI embedding
  endpoint, the intent-extraction LLM and the two LLM rerankers, the
  workbook-backed profile store) are modelled as explicit function
  parameters / oracle records, following §5–§6 of the design: the theorems
  quantify over all of their behaviours.
* Exceptions are modelled with `Except`: a Python function that may raise is
  embedded as a function into `Except ε α`.
-/

namespace RecipeRec

/-- Python strings. -/
abbrev Str := List Char

/-! ## Basic text helpers (Python `str` operations used by the code) -/

/-- `s.lower()` (ASCII case folding, which covers every string the code
compares). -/
def lowerStr (s : Str) : Str := s.map Char.toLower

/-- `s.strip()`: remove leading and trailing whitespace. -/
def trimStr (s : Str) : Str :=
  ((s.dropWhile Char.isWhitespace).reverse.dropWhile Char.isWhitespace).reverse

/-- Python `needle in haystack` (substring containment): the needle is a
prefix of some suffix of the haystack.  (An empty needle is contained in
every string, as in Python.) -/
def containsSub (haystack needle : Str) : Bool :=
  match haystack with
  | [] => needle.isEmpty
  | _ :: t => needle.isPrefixOf haystack || containsSub t needle

/-- `t.strip(chars)` for an explicit character set (used by
`_extract_query_tokens` with `".,!?"`). -/
def stripChars (cs : List Char) (s : Str) : Str :=
  ((s.dropWhile (cs.contains ·)).reverse.dropWhile (cs.contains ·)).reverse

/-- Python `str.split()` with no argument: split on runs of whitespace,
discarding empty pieces. -/
def splitWs (s : Str) : List Str :=
  ((s.splitOnP Char.isWhitespace).filter (· ≠ []))

/-- Maximal runs of characters satisfying `p`, in order (used to model
`re.findall r"[a-z]+"`). -/
def runsOf (p : Char → Bool) (s : Str) : List Str :=
  ((s.splitOnP (fun c => !p c)).filter (· ≠ []))

/-- Digit list to number (`int(...)` on a captured digit group). -/
def digitsToNat (ds : Str) : Nat :=
  ds.foldl (fun acc c => acc * 10 + (c.toNat - 48)) 0

/-- Decimal rendering of a natural number (Python `"{}".format(n)`). -/
def natToStr (n : Nat) : Str := (toString n).toList

/-- Python `str.replace(pat, rep)` (all non-overlapping occurrences, left to
right), with explicit fuel so that the definition is structural and reduces
by `decide`/`rfl`.  `replaceAll` instantiates the fuel with the length of the
string, which is always sufficient. -/
def replaceAllFuel (pat rep : Str) : Nat → Str → Str
  | _, [] => []
  | 0, s => s
  | fuel + 1, c :: rest =>
    if pat ≠ [] ∧ pat.isPrefixOf (c :: rest) then
      rep ++ replaceAllFuel pat rep fuel ((c :: rest).drop pat.length)
    else
      c :: replaceAllFuel pat rep fuel rest

/-- Python `s.replace(pat, rep)`. -/
def replaceAll (s pat rep : Str) : Str :=
  replaceAllFuel pat rep s.length s

/-! ## Stable descending sort

Python's `list.sort(key=k, reverse=True)` / `sorted(..., reverse=True)` is a
stable sort that orders elements by descending key, preserving the original
relative order of elements with equal keys.  We model it with an insertion
sort parameterised by the relation `r x y` = "`x` may be placed before `y`";
for a stable descending sort by key `k` this relation is `k y ≤ k x`. -/

section SortRel

variable {α : Type} (r : α → α → Prop) [DecidableRel r]

/-- Insert `x` (an element that originally occurred *before* every element of
the list) into an `r`-ordered list: `x` is placed before the first element
`y` with `r x y`. -/
def insertRel (x : α) : List α → List α
  | [] => [x]
  | y :: ys => if r x y then x :: y :: ys else y :: insertRel x ys

/-- Stable insertion sort by `r`. -/
def sortRel : List α → List α
  | [] => []
  | x :: xs => insertRel r x (sortRel xs)

end SortRel


/-! ## Data model (`models.py`)

`Recipe` is parameterised by the numeric type `K` used for macro values;
an absent macro is `none` (the code's `None`), which is distinct from
`some 0`. -/

structure Recipe (K : Type) where
  recipe_id : Str
  name : Str
  ingredients : List Str
  diets : List Str
  allergens : List Str
  calories : Option K
  protein : Option K
  carbs : Option K
  fat : Option K
  fiber : Option K
  instructions : Option Str
  source_url : Option Str
  deriving DecidableEq

structure UserProfile where
  user_id : Str
  name : Str
  age : Option Nat
  likes : Finset Str
  dislikes : Finset Str
  dietary_restrictions : Finset Str
  allergies : Finset Str
  objective : Option Str
  inventory : Finset Str
  deriving DecidableEq

/-- `UserProfile(user_id=username, name=username)` — the fresh profile the
orchestrator creates for an unknown username (all optional fields default). -/
def freshUser (username : Str) : UserProfile :=
  { user_id := username, name := username, age := none,
    likes := ∅, dislikes := ∅, dietary_restrictions := ∅, allergies := ∅,
    objective := none, inventory := ∅ }

/-! ## Dietary compliance filter (`dietary_agent.py`) -/

/-- `DietaryRestrictionAgent.canonical_map` (a Python dict with distinct
keys, modelled as an association list). -/
def canonicalMap : List (Str × Str) :=
  [ ("gluten-free".toList, "gluten free".toList),
    ("gluten free".toList, "gluten free".toList),
    ("celiac".toList, "gluten free".toList),
    ("celiac disease".toList, "gluten free".toList),
    ("vegan".toList, "vegan".toList),
    ("strict vegan".toList, "vegan".toList),
    ("vegetarian".toList, "vegetarian".toList),
    ("lacto ovo vegetarian".toList, "lacto ovo vegetarian".toList),
    ("pescetarian".toList, "pescetarian".toList),
    ("pescatarian".toList, "pescetarian".toList) ]

/-- Lookup in `canonical_map`; `r_lower` itself if absent
(the `else` branch of `_normalise_restrictions`). -/
def canonicalTag (rLower : Str) : Str :=
  match canonicalMap.lookup rLower with
  | some t => t
  | none => rLower

/-- `DietaryRestrictionAgent._normalise_restrictions`. -/
def normaliseRestrictions (restrictions : Finset Str) : Finset Str :=
  ((restrictions.image (fun r => lowerStr (trimStr r))).filter (· ≠ [])).image
    canonicalTag

/-- The closed set of enforceable diet tags checked by
`_matches_lifestyle`. -/
def enforceableTags : Finset Str :=
  { "gluten free".toList, "vegan".toList, "vegetarian".toList,
    "lacto ovo vegetarian".toList, "pescetarian".toList }

/-- `DietaryRestrictionAgent._matches_lifestyle`. -/
def matchesLifestyle {K : Type} (recipe : Recipe K) (restrictions : Finset Str) :
    Prop :=
  ∀ tag ∈ normaliseRestrictions restrictions,
    tag ∈ enforceableTags → tag ∈ (recipe.diets.map lowerStr)

instance {K : Type} (recipe : Recipe K) (restrictions : Finset Str) :
    Decidable (matchesLifestyle recipe restrictions) := by
  unfold matchesLifestyle; infer_instance

/-- `DietaryRestrictionAgent._violates_allergies`. -/
def violatesAllergies {K : Type} (recipe : Recipe K) (allergies : Finset Str) :
    Prop :=
  ∃ a ∈ allergies,
    lowerStr (trimStr a) ≠ [] ∧
      lowerStr (trimStr a) ∈ (recipe.allergens.map lowerStr)

instance {K : Type} (recipe : Recipe K) (allergies : Finset Str) :
    Decidable (violatesAllergies recipe allergies) := by
  unfold violatesAllergies; infer_instance

/-- The per-candidate acceptance test of `filter_recipes` (the loop body's
two checks combined). -/
def dietPass {K : Type} (recipe : Recipe K) (user : UserProfile) : Prop :=
  matchesLifestyle recipe user.dietary_restrictions ∧
    ¬ violatesAllergies recipe user.allergies

instance {K : Type} (recipe : Recipe K) (user : UserProfile) :
    Decidable (dietPass recipe user) := by
  unfold dietPass; infer_instance

/-- `DietaryRestrictionAgent.filter_recipes` (the accumulating loop). -/
def filterRecipes {K : Type} [DecidableEq K] (recipes : List (Recipe K))
    (user : UserProfile) : List (Recipe K) :=
  match recipes with
  | [] => []
  | r :: rest =>
    if matchesLifestyle r user.dietary_restrictions then
      if violatesAllergies r user.allergies then filterRecipes rest user
      else r :: filterRecipes rest user
    else filterRecipes rest user

/-! ## Conversational agent: pure helpers (`conversational_agent.py`) -/

/-- Word characters for the regex `\b` boundary (`\w` = alphanumeric or
underscore in the ASCII range used here). -/
def isWordChar (c : Char) : Bool := c.isAlphanum || c = '_'

/-- Match `number\s+(\d+)` anchored at the start of `l`
(first pattern of `_extract_index_from_message`). -/
def matchNumberAt (l : Str) : Option Nat :=
  if ("number".toList).isPrefixOf l then
    let rest := l.drop 6
    let ws := rest.takeWhile Char.isWhitespace
    if ws = [] then none
    else
      let ds := (rest.drop ws.length).takeWhile Char.isDigit
      if ds = [] then none else some (digitsToNat ds)
  else none

/-- `re.search(r"number\s+(\d+)", msg)`: leftmost match. -/
def searchNumber : Str → Option Nat
  | [] => none
  | c :: t =>
    match matchNumberAt (c :: t) with
    | some n => some n
    | none => searchNumber t

/-- Match `(\d+)(st|nd|rd|th)\b` anchored at the start of `l` (the `\b`
before the digits is checked by the caller). -/
def matchOrdinalAt (l : Str) : Option Nat :=
  let ds := l.takeWhile Char.isDigit
  if ds = [] then none
  else
    let rest := l.drop ds.length
    if ["st", "nd", "rd", "th"].any (fun suf => suf.toList.isPrefixOf rest) then
      match rest.drop 2 with
      | [] => some (digitsToNat ds)
      | c :: _ => if isWordChar c then none else some (digitsToNat ds)
    else none

/-- `re.search(r"\b(\d+)(st|nd|rd|th)\b", msg)`: leftmost match, tracking the
previous character for the leading word boundary. -/
def searchOrdinal (prev : Option Char) : Str → Option Nat
  | [] => none
  | c :: t =>
    let boundary := match prev with | none => true | some p => !isWordChar p
    match (if boundary then matchOrdinalAt (c :: t) else none) with
    | some n => some n
    | none => searchOrdinal (some c) t

/-- The `word_to_idx` table, in insertion order. -/
def wordToIdx : List (Str × Nat) :=
  [ ("first".toList, 1), ("second".toList, 2), ("third".toList, 3),
    ("fourth".toList, 4), ("fifth".toList, 5) ]

/-- `re.search(r"\b([1-9])\b", msg)`: leftmost single digit 1–9 with word
boundaries on both sides. -/
def searchSingleDigit (prev : Option Char) : Str → Option Nat
  | [] => none
  | c :: t =>
    let prevOk := match prev with | none => true | some p => !isWordChar p
    let nextOk := match t with | [] => true | d :: _ => !isWordChar d
    if prevOk && decide ('1' ≤ c) && decide (c ≤ '9') && nextOk then
      some (c.toNat - 48)
    else searchSingleDigit (some c) t

/-- `ConversationalAgent._extract_index_from_message`. -/
def extractIndex (message : Str) : Option Nat :=
  let msg := lowerStr message
  match searchNumber msg with
  | some n => some n
  | none =>
    match searchOrdinal none msg with
    | some n => some n
    | none =>
      match wordToIdx.find? (fun p => containsSub msg p.1) with
      | some p => some p.2
      | none => searchSingleDigit none msg

/-- `ConversationalAgent._is_detail_request`. -/
def isDetailRequest (message : Str) : Bool :=
  let msg := lowerStr message
  [ "recipe", "ingredients", "how do i make", "how to make", "steps",
    "method", "instructions" ].any (fun k => containsSub msg k.toList)

/-- The inventory-clear trigger of `handle_message` step 0. -/
def containsClearPhrase (message : Str) : Bool :=
  [ "clear my fridge", "clear my inventory", "reset inventory"
  ].any (fun p => containsSub (lowerStr message) p.toList)

/-! ### Turn analysis -/

/-- `TurnAnalysis`: the completed (default-filled) analysis dictionary that
`_analyse_message_with_llm` returns.  The LLM call plus the local
default-filling is an external collaborator (§6) and is modelled as an
oracle producing a value of this shape. -/
structure Analysis where
  objective : Option Str
  dietary_restrictions : List Str
  allergies : List Str
  likes : List Str
  dislikes : List Str
  inventory : List Str
  wants_meal_plan : Bool
  time_horizon : Option Str
  query : Str
  deriving DecidableEq

/-- Step 2a of `handle_message`: merge the side-channel `extra_inventory`
hint into the analysis (set union, i.e. duplicates removed; skipped when
there is no hint). -/
def mergeExtra (a : Analysis) (extraInventory : List Str) : Analysis :=
  if extraInventory = [] then a
  else { a with inventory := (a.inventory ++ extraInventory).dedup }

/-- `ConversationalAgent._update_user_profile_from_analysis`. -/
def updateProfile (user : UserProfile) (a : Analysis) : UserProfile :=
  let u1 :=
    match a.objective with
    | some o => if o = [] then user else { user with objective := some o }
    | none => user
  let u2 := { u1 with
    dietary_restrictions := u1.dietary_restrictions ∪ a.dietary_restrictions.toFinset,
    allergies := u1.allergies ∪ a.allergies.toFinset,
    likes := u1.likes ∪ a.likes.toFinset,
    dislikes := u1.dislikes ∪ a.dislikes.toFinset }
  if a.inventory = [] then u2
  else { u2 with inventory := a.inventory.toFinset }

/-! ### Query building -/

/-- The `remove_phrases` list of `_build_recipe_query`. -/
def removePhrases : List Str :=
  [ "i am", "i'm", "please", "can you", "could you", "suggest", "give me",
    "recommend", "recipes", "recipe", "in my inventory", "currently have",
    "trying to", "trying", "bulk", "cut", "lose weight", "healthy",
    "healthier", "allergic to", "allergy", "inventory", "dietary",
    "preference" ].map String.toList

/-- The stopword set of `_build_recipe_query`. -/
def queryStopwords : List Str :=
  [ "a", "an", "the", "for", "and", "with", "or", "of", "on", "in", "to",
    "my", "is", "am" ].map String.toList

/-- `[a-z]` (the character class of `re.findall(r"[a-z]+", text)`). -/
def isLowerAlpha (c : Char) : Bool := decide ('a' ≤ c) && decide (c ≤ 'z')

/-- The message text after lowercasing and stripping every
low-information phrase (each replaced by a space, all occurrences, in the
fixed order of `remove_phrases`). -/
def strippedMsgText (message : Str) : Str :=
  removePhrases.foldl (fun t p => replaceAll t p [' ']) (lowerStr message)

/-- The content keywords of the message: maximal `[a-z]+` runs of the
stripped text, minus stopwords. -/
def msgKeywords (message : Str) : List Str :=
  (runsOf isLowerAlpha (strippedMsgText message)).filter (· ∉ queryStopwords)

/-- `", ".join(...)` / `" ".join(...)`. -/
def joinSep (sep : Str) : List Str → Str
  | [] => []
  | [x] => x
  | x :: rest => x ++ sep ++ joinSep sep rest

/-- The stripped inventory items used by query building:
`[i.strip() for i in inventory if i and i.strip()]`. -/
def inventoryItems (inv : List Str) : List Str :=
  (inv.filter (fun i => i ≠ [] && trimStr i ≠ [])).map trimStr

/-- `ConversationalAgent._build_recipe_query`; `none` models the `None`
return signalling query-formation failure. -/
def buildRecipeQuery (a : Analysis) (message : Str) : Option Str :=
  let invList := inventoryItems a.inventory
  if invList ≠ [] then some (joinSep (", ".toList) invList)
  else
    let keywords := msgKeywords message
    if keywords.length ≥ 2 then some (joinSep [' '] (keywords.take 6))
    else none

/-! ### Focus nutrient -/

/-- `ConversationalAgent._infer_focus_nutrient`. -/
def inferFocusNutrient (message : Str) (a : Analysis) : Option Str :=
  let text := lowerStr (message ++ [' '] ++ a.objective.getD [])
  if containsSub text "fibre".toList || containsSub text "fiber".toList then
    some "fiber".toList
  else if containsSub text "protein".toList ||
      containsSub text "high protein".toList then
    some "protein".toList
  else if ["cutting", "calorie deficit", "low calorie", "weight loss"].any
      (fun w => containsSub text w.toList) then
    some "calories".toList
  else
    let obj := lowerStr (a.objective.getD [])
    if ["bulking", "muscle gain", "high protein"].any (fun w => obj = w.toList)
    then some "protein".toList
    else if ["weight loss", "cutting"].any (fun w => obj = w.toList) then
      some "calories".toList
    else none

/-- `ConversationalAgent._wants_usda_snacks_or_macros`. -/
def wantsUsda (message : Str) (a : Analysis) : Bool :=
  let text := lowerStr (message ++ [' '] ++ a.objective.getD [])
  [ "snack", "snacks", "protein bar", "bars", "ready to eat", "grab and go",
    "on the go", "macros", "macro info", "nutritional info",
    "nutrition info", "calories", "grams of protein", "macro breakdown"
  ].any (fun w => containsSub text w.toList)

/-- The macro fields reachable from `_sort_by_focus_nutrient`'s `key_map`. -/
inductive MacroField
  | protein
  | fiber
  | calories
  deriving DecidableEq

/-- `_sort_by_focus_nutrient`'s `key_map`. -/
def keyMapLookup (s : Str) : Option MacroField :=
  if s = "protein".toList then some .protein
  else if s = "fiber".toList then some .fiber
  else if s = "fibre".toList then some .fiber
  else if s = "calories".toList then some .calories
  else if s = "energy".toList then some .calories
  else none

/-- `getattr(recipe, field)` for a macro field. -/
def getMacro {K : Type} (r : Recipe K) : MacroField → Option K
  | .protein => r.protein
  | .fiber => r.fiber
  | .calories => r.calories

/-- The sort key `getattr(r, field, 0) or 0.0`: a missing (`None`) value
counts as 0. -/
def macroKey {K : Type} [Zero K] (field : MacroField) (r : Recipe K) : K :=
  (getMacro r field).getD 0

/-- `ConversationalAgent._sort_by_focus_nutrient`: stable descending sort of
the final list by the focus nutrient's raw value. -/
def sortByFocusNutrient {K : Type} [LinearOrderedField K]
    (recipes : List (Recipe K)) (focus : Option Str) : List (Recipe K) :=
  match focus with
  | none => recipes
  | some f =>
    if f = [] || recipes.isEmpty then recipes
    else
      match keyMapLookup (lowerStr f) with
      | none => recipes
      | some field =>
        sortRel (fun a b => macroKey field b ≤ macroKey field a) recipes

/-! ### The orchestrator (`handle_message`) -/

/-- The external collaborators `handle_message` drives, as oracles (§6):
the intent-extraction LLM (`analyse`, already default-filled), the retrieval
pipeline of the API agent (network-dependent; `.error` models an
`APIDataError` escaping `fetch_recipes`), and the two LLM rerankers. -/
structure Collab (K : Type) where
  analyse : UserProfile → Str → Analysis
  fetchRecipes : Str → Option Str → Nat → Bool → Except Unit (List (Recipe K))
  ingredientRank : List (Recipe K) → UserProfile → List (Recipe K)
  objectiveRank : List (Recipe K) → UserProfile → List (Recipe K)

/-- The `analysis` payload returned by the four exit paths of
`handle_message` (the JSON body appended to `"ANALYSIS: "` context strings
is carried structurally in the `normal`/`normalNoQuery` constructors; note
that the early no-query exit returns the analysis *before* the
`focus_nutrient` key is added). -/
inductive AnalysisOut
  | inventoryCleared
  | detail (idx : Nat) (recipeName : Str)
  | normalNoQuery (a : Analysis)
  | normal (a : Analysis) (focus : Option Str)
  deriving DecidableEq

/-- The tuple `(final_recipes, analysis, user, save_result)` returned by
`handle_message`, together with the state it leaves behind: the profile/
context pair passed to `memory_agent.save_user_profile` (every branch saves
exactly once) and the `last_recommendations[username]` value after the
turn. -/
structure TurnResult (K : Type) where
  recipes : List (Recipe K)
  analysis : AnalysisOut
  user : UserProfile
  savedProfile : UserProfile
  savedContext : Str
  newLast : List (Recipe K)
  deriving DecidableEq

/-- A placeholder recipe for the (unreachable, guard-protected) out-of-range
list access in the detail branch. -/
def dummyRecipe {K : Type} : Recipe K :=
  { recipe_id := [], name := [], ingredients := [], diets := [],
    allergens := [], calories := none, protein := none, carbs := none,
    fat := none, fiber := none, instructions := none, source_url := none }

/-- The detail-mode condition of `handle_message` step 1a:
`last_list and idx is not None and 1 <= idx <= len(last_list) and
self._is_detail_request(message)`. -/
def detailGuard {K : Type} (lastList : List (Recipe K)) (message : Str) :
    Bool :=
  (!lastList.isEmpty) &&
    (match extractIndex message with
     | some idx => decide (1 ≤ idx) && decide (idx ≤ lastList.length)
     | none => false) &&
    isDetailRequest message

/-- The detail branch of `handle_message`: return the single cached recipe,
save, leave the cached list untouched.  No collaborator is consulted. -/
def detailTurn {K : Type} (lastList : List (Recipe K)) (user : UserProfile)
    (idx : Nat) : TurnResult K :=
  let selected := lastList.getD (idx - 1) dummyRecipe
  { recipes := [selected],
    analysis := .detail idx selected.name,
    user := user,
    savedProfile := user,
    savedContext := "DETAIL_REQUEST: index ".toList ++ natToStr idx ++
      " -> ".toList ++ selected.name,
    newLast := lastList }

/-- Normal mode (steps 2–11 of `handle_message`). -/
def normalTurn {K : Type} [LinearOrderedField K] (C : Collab K)
    (user0 : UserProfile) (lastList : List (Recipe K)) (message : Str)
    (extraInventory : List Str) : Except Unit (TurnResult K) :=
  let analysis := mergeExtra (C.analyse user0 message) extraInventory
  let user := updateProfile user0 analysis
  match buildRecipeQuery analysis message with
  | none =>
    .ok { recipes := [], analysis := .normalNoQuery analysis, user := user,
          savedProfile := user, savedContext := "NO_VALID_QUERY".toList,
          newLast := lastList }
  | some query =>
    let focus := inferFocusNutrient message analysis
    let includeUsda := wantsUsda message analysis
    match C.fetchRecipes query focus 30 includeUsda with
    | .error e => .error e
    | .ok allRecipes =>
      let compliant := filterRecipes allRecipes user
      if compliant.isEmpty then
        .ok { recipes := [], analysis := .normal analysis focus,
              user := user, savedProfile := user,
              savedContext := "ANALYSIS: ".toList, newLast := [] }
      else
        let ingredientRanked := C.ingredientRank compliant user
        let finalRecipes :=
          sortByFocusNutrient (C.objectiveRank ingredientRanked user) focus
        .ok { recipes := finalRecipes, analysis := .normal analysis focus,
              user := user, savedProfile := user,
              savedContext := "ANALYSIS: ".toList, newLast := finalRecipes }

/-- `ConversationalAgent.handle_message`: the per-turn state machine.
`stored` is the durable profile for `username` (`load_user_profile`),
`lastList` the in-process `last_recommendations[username]`.  An uncaught
`APIDataError` from the retrieval step aborts the turn (`.error`). -/
def handleMessage {K : Type} [LinearOrderedField K] (C : Collab K)
    (stored : Option UserProfile) (lastList : List (Recipe K))
    (username message : Str) (extraInventory : List Str) :
    Except Unit (TurnResult K) :=
  if containsClearPhrase message then
    let user := { stored.getD (freshUser username) with inventory := ∅ }
    .ok { recipes := [], analysis := .inventoryCleared, user := user,
          savedProfile := user, savedContext := "INVENTORY_CLEARED".toList,
          newLast := lastList }
  else
    let user := stored.getD (freshUser username)
    if detailGuard lastList message then
      detailTurn lastList user ((extractIndex message).getD 0) |> .ok
    else
      normalTurn C user lastList message extraInventory

/-! ### Projections of a turn's outcome (used to state the properties) -/

/-- The recipe list visible to the caller (`[]` when the turn aborted). -/
def recipesOf {K : Type} : Except Unit (TurnResult K) → List (Recipe K)
  | .ok r => r.recipes
  | .error _ => []

/-- The updated profile, when the turn completed. -/
def userOf {K : Type} : Except Unit (TurnResult K) → Option UserProfile
  | .ok r => some r.user
  | .error _ => none

/-- The updated profile's inventory, when the turn completed. -/
def invOf {K : Type} (res : Except Unit (TurnResult K)) : Option (Finset Str) :=
  (userOf res).map (fun u => u.inventory)

/-- The focus nutrient recorded in a completed normal-mode turn's analysis
(`none` for every other outcome). -/
def focusOf {K : Type} : Except Unit (TurnResult K) → Option (Option Str)
  | .ok r =>
    match r.analysis with
    | .normal _ focus => some focus
    | _ => none
  | .error _ => none

/-! ## API data agent (`api_agent.py`)

The numeric environment bundles the two library functions (`math.log`,
`math.sqrt`) and the optional OpenAI embeddings client.  All properties are
proved for an arbitrary interpretation of these. -/

structure NumEnv (K : Type) where
  mlog : K → K
  msqrt : K → K
  embed : Option (List Str → List (List K))

/-- A raw recipe dictionary, the normalized candidate shape both providers
are mapped into. -/
structure RawRecipe (K : Type) where
  id : Str
  name : Str
  ingredients : List Str
  diets : List Str
  allergens : List Str
  calories : Option K
  protein : Option K
  carbs : Option K
  fat : Option K
  fiber : Option K
  instructions : Option Str
  source_url : Option Str
  source : Str
  deriving DecidableEq

/-- `APIDataAgent._normalise_recipe` (on a raw dict). -/
def normaliseRecipe {K : Type} (raw : RawRecipe K) : Recipe K :=
  { recipe_id := raw.id, name := raw.name, ingredients := raw.ingredients,
    diets := raw.diets, allergens := raw.allergens,
    calories := raw.calories, protein := raw.protein, carbs := raw.carbs,
    fat := raw.fat, fiber := raw.fiber, instructions := raw.instructions,
    source_url := raw.source_url }

/-! ### Reranking helpers -/

/-- `APIDataAgent._build_recipe_text`. -/
def buildRecipeText {K : Type} (raw : RawRecipe K) : Str :=
  raw.name ++ ". Ingredients: ".toList ++ joinSep ", ".toList raw.ingredients ++
    ". Diets: ".toList ++ joinSep ", ".toList raw.diets ++
    ". Source: ".toList ++ raw.source ++ ".".toList

/-- The stopword set of `_extract_query_tokens`. -/
def rerankStopwords : List Str :=
  [ "high", "low", "protein", "fibre", "fiber", "fat", "carb", "carbs",
    "calorie", "calories", "healthy", "recipe", "recipes", "meal", "meals",
    "for", "with", "and", "please" ].map String.toList

/-- `APIDataAgent._extract_query_tokens`. -/
def extractQueryTokens (query : Str) : List Str :=
  let tokens := (splitWs (lowerStr query)).map (stripChars ".,!?".toList)
  tokens.filter (fun t => t ≠ [] && t ∉ rerankStopwords)

/-- `APIDataAgent._ingredient_coverage`. -/
def ingredientCoverage {K : Type} [LinearOrderedField K] (raw : RawRecipe K)
    (tokens : List Str) : K :=
  if tokens = [] then 1
  else
    let name := lowerStr raw.name
    let ingredients := raw.ingredients.map lowerStr
    let hits := (tokens.filter (fun t =>
      containsSub name t || ingredients.any (fun ing => containsSub ing t))).length
    (hits : K) / (tokens.length : K)

/-- The macro fields of a raw dict reachable from `_nutrient_value`'s
mapping. -/
inductive RawField
  | protein
  | fiber
  | fat
  | carbs
  | calories
  deriving DecidableEq

/-- `_nutrient_value`'s `mapping` dict. -/
def nutrientFieldMap (key : Str) : Option RawField :=
  if key = "protein".toList then some .protein
  else if key = "fiber".toList then some .fiber
  else if key = "fibre".toList then some .fiber
  else if key = "fat".toList then some .fat
  else if key = "carb".toList then some .carbs
  else if key = "carbs".toList then some .carbs
  else if key = "calorie".toList then some .calories
  else if key = "calories".toList then some .calories
  else if key = "energy".toList then some .calories
  else none

/-- `raw.get(field)` for a raw dict's macro field. -/
def rawField {K : Type} (raw : RawRecipe K) : RawField → Option K
  | .protein => raw.protein
  | .fiber => raw.fiber
  | .fat => raw.fat
  | .carbs => raw.carbs
  | .calories => raw.calories

/-- `APIDataAgent._nutrient_value` (0 when no focus nutrient is given, when
it maps to no field, or when the field's value is absent). -/
def nutrientValue {K : Type} [LinearOrderedField K] (raw : RawRecipe K)
    (focus : Option Str) : K :=
  match focus with
  | none => 0
  | some f =>
    if f = [] then 0  -- `if not focus_nutrient` is also true for ""
    else
      match nutrientFieldMap (lowerStr f) with
      | none => 0
      | some field =>
        match rawField raw field with
        | some v => v
        | none => 0

/-- `APIDataAgent._cosine`. -/
def cosine {K : Type} [LinearOrderedField K] (msqrt : K → K) (u v : List K) :
    K :=
  if u = [] || v = [] || u.length ≠ v.length then 0
  else
    let dot := ((u.zip v).map (fun p => p.1 * p.2)).sum
    let nu := msqrt ((u.map (fun a => a * a)).sum)
    let nv := msqrt ((v.map (fun b => b * b)).sum)
    if nu = 0 ∨ nv = 0 then 0 else dot / (nu * nv)

/-- One entry of `_rerank`'s `scored` list. -/
structure ScoredEntry (K : Type) where
  score : K
  nutrValue : K
  recipe : RawRecipe K
  deriving DecidableEq

/-- The sort key of `_rerank`: the tuple `(nutr_value, score)`. -/
def entryKey {K : Type} (e : ScoredEntry K) : K × K := (e.nutrValue, e.score)

/-- Python tuple comparison `p <= q` on pairs (lexicographic). -/
def pairLe {K : Type} [LinearOrder K] (p q : K × K) : Prop :=
  p.1 < q.1 ∨ (p.1 = q.1 ∧ p.2 ≤ q.2)

instance {K : Type} [LinearOrder K] (p q : K × K) : Decidable (pairLe p q) := by
  unfold pairLe; infer_instance

/-- The scored entry a raw candidate at position `idx` of the pool gets
(`cov`/`sim`/`nutr_score` and their weighted combination; the weights are
`0.4`, `0.4`, `0.2`). -/
def scoreEntry {K : Type} [LinearOrderedField K] (env : NumEnv K)
    (tokens : List Str) (focus : Option Str) (queryVec : Option (List K))
    (recipeVecs : List (List K)) (idx : Nat) (raw : RawRecipe K) :
    ScoredEntry K :=
  let cov := ingredientCoverage raw tokens
  let nutr := nutrientValue raw focus
  -- `math.log(1 + max(nutr, 0)) if nutr else 0.0`
  let nutrScore := if nutr = 0 then 0 else env.mlog (1 + max nutr 0)
  let sim :=
    match queryVec with
    | some qv =>
      if idx < recipeVecs.length then cosine env.msqrt qv (recipeVecs.getD idx [])
      else 0
    | none => 0
  { score := (4 / 10 : K) * cov + (4 / 10 : K) * sim + (2 / 10 : K) * nutrScore,
    nutrValue := nutr, recipe := raw }

/-- The embedding step of `_rerank`: `(query_vec, recipe_vecs)` plus the
list of `_embed` calls performed (each element is one `_embed` input). -/
def rerankEmbedded {K : Type} (env : NumEnv K) (query : Str)
    (recipeTexts : List Str) :
    Option (List K) × List (List K) × List (List Str) :=
  match env.embed with
  | some embedFn =>
    let input := query :: recipeTexts
    match embedFn input with
    | [] => (none, [], [input])
    | qv :: rest => (some qv, rest, [input])
  | none => (none, [], [])

/-- The `scored` list built by `_rerank` (one entry per raw candidate, in
pool order). -/
def rerankScored {K : Type} [LinearOrderedField K] (env : NumEnv K)
    (query : Str) (raws : List (RawRecipe K)) (focus : Option Str) :
    List (ScoredEntry K) :=
  let tokens := extractQueryTokens query
  let e := rerankEmbedded env query (raws.map buildRecipeText)
  raws.enum.map (fun p => scoreEntry env tokens focus e.1 e.2.1 p.1 p.2)

/-- The `scored` list after `_rerank`'s stable two-key descending sort
(`scored.sort(key=lambda x: (nutr_value, score), reverse=True)`). -/
def sortedScored {K : Type} [LinearOrderedField K] (env : NumEnv K)
    (query : Str) (raws : List (RawRecipe K)) (focus : Option Str) :
    List (ScoredEntry K) :=
  sortRel (fun a b => pairLe (entryKey b) (entryKey a))
    (rerankScored env query raws focus)

/-- `APIDataAgent._rerank`, instrumented with the list of embedding-service
calls it performs (second component).  The first component is the list
`_rerank` returns. -/
def rerankT {K : Type} [LinearOrderedField K] (env : NumEnv K) (query : Str)
    (raws : List (RawRecipe K)) (focus : Option Str) (topK : Nat) :
    List (RawRecipe K) × List (List Str) :=
  if raws = [] then ([], [])
  else
    (((sortedScored env query raws focus).take topK).map (fun s => s.recipe),
      (rerankEmbedded env query (raws.map buildRecipeText)).2.2)

/-- `APIDataAgent._rerank` (the list it returns). -/
def rerank {K : Type} [LinearOrderedField K] (env : NumEnv K) (query : Str)
    (raws : List (RawRecipe K)) (focus : Option Str) (topK : Nat) :
    List (RawRecipe K) :=
  (rerankT env query raws focus topK).1

/-! ### Providers

A provider interaction is either `unreachable` (the `requests.get` call
itself raises, e.g. connection refused / DNS failure / timeout) or a
`response` with an HTTP status (`ok` = no 4xx/5xx, so `raise_for_status`
passes) and an optional parsed JSON body (`none` = `resp.json()` raises on a
malformed payload). -/

inductive FetchOutcome (α : Type)
  | unreachable
  | response (ok : Bool) (parsed : Option α)
  deriving DecidableEq

/-- Python exceptions crossing function boundaries inside the agent. -/
inductive PyErr
  | connectionError
  | httpError
  | parseError
  deriving DecidableEq

/-- Python `a or b` on optional strings (`None` and `""` are falsy). -/
def pyOrStr (a b : Option Str) : Option Str :=
  match a with
  | some s => if s = [] then b else some s
  | none => b

/-- First-match-wins accumulator for macro extraction (`cal = val if cal is
None else cal`). -/
structure MacroAcc (K : Type) where
  cal : Option K
  prot : Option K
  carb : Option K
  fat : Option K
  fiber : Option K

/-- Keep the first value seen for a macro. -/
def keepFirst {K : Type} (old : Option K) (val : K) : Option K :=
  match old with
  | none => some val
  | some v => some v

/-- One `extendedIngredients` entry of a Spoonacular result. -/
structure SpoonIng where
  nameClean : Option Str
  original : Option Str
  name : Option Str
  deriving DecidableEq

/-- `ing.get("nameClean") or ing.get("original") or ing.get("name")`,
appended only when truthy. -/
def ingName (ing : SpoonIng) : Option Str :=
  match pyOrStr ing.nameClean (pyOrStr ing.original ing.name) with
  | some s => if s = [] then none else some s
  | none => none

/-- One `nutrition.nutrients` entry of a Spoonacular result (`amount` is
`none` when absent or not numeric). -/
structure SpoonNutrient (K : Type) where
  name : Option Str
  amount : Option K
  deriving DecidableEq

/-- The per-nutrient `elif` chain of `_fetch_from_spoonacular`. -/
def spoonMacroStep {K : Type} (acc : MacroAcc K) (n : SpoonNutrient K) :
    MacroAcc K :=
  let nname := lowerStr (n.name.getD [])
  match n.amount with
  | none => acc
  | some val =>
    if containsSub nname "calories".toList then
      { acc with cal := keepFirst acc.cal val }
    else if containsSub nname "protein".toList then
      { acc with prot := keepFirst acc.prot val }
    else if containsSub nname "carbohydrate".toList then
      { acc with carb := keepFirst acc.carb val }
    else if containsSub nname "fat".toList then
      { acc with fat := keepFirst acc.fat val }
    else if containsSub nname "fiber".toList ||
        containsSub nname "fibre".toList then
      { acc with fiber := keepFirst acc.fiber val }
    else acc

/-- One Spoonacular `results` entry (the fields the code reads). -/
structure SpoonRec (K : Type) where
  id : Str
  title : Option Str
  extendedIngredients : List SpoonIng
  diets : List Str
  nutrients : List (SpoonNutrient K)
  sourceUrl : Option Str
  deriving DecidableEq

/-- The Spoonacular `complexSearch` response body. -/
structure SpoonPayload (K : Type) where
  message : Option Str
  results : List (SpoonRec K)
  deriving DecidableEq

/-- The per-result normalization loop of `_fetch_from_spoonacular`. -/
def spoonToRaw {K : Type} (r : SpoonRec K) : RawRecipe K :=
  let ingredients := r.extendedIngredients.filterMap ingName
  let m := r.nutrients.foldl spoonMacroStep ⟨none, none, none, none, none⟩
  let title :=
    match r.title with
    | some t => if t = [] then "Unknown Recipe".toList else t
    | none => "Unknown Recipe".toList
  { id := "spoon_".toList ++ r.id, name := title, ingredients := ingredients,
    diets := r.diets, allergens := [], calories := m.cal, protein := m.prot,
    carbs := m.carb, fat := m.fat, fiber := m.fiber, instructions := none,
    source_url := r.sourceUrl, source := "spoonacular".toList }

/-- `APIDataAgent._fetch_from_spoonacular`.  The `raise_for_status`/`json()`
pair sits inside a `try` that degrades to `[]`, as does the quota message;
but the `requests.get` call itself is *outside* the `try`, so an unreachable
provider raises. -/
def fetchFromSpoonacular {K : Type} (keyPresent : Bool)
    (resp : FetchOutcome (SpoonPayload K)) : Except PyErr (List (RawRecipe K)) :=
  if !keyPresent then .ok []
  else
    match resp with
    | .unreachable => .error .connectionError
    | .response ok parsed =>
      if !ok then .ok []
      else
        match parsed with
        | none => .ok []
        | some data =>
          let msg := lowerStr (data.message.getD [])
          if containsSub msg "daily points limit".toList then .ok []
          else .ok (data.results.map spoonToRaw)

/-- One USDA `foodNutrients` entry. -/
structure UsdaNutrient (K : Type) where
  nutrientName : Option Str
  value : Option K
  deriving DecidableEq

/-- The per-nutrient `elif` chain of `_fetch_from_usda`. -/
def usdaMacroStep {K : Type} (acc : MacroAcc K) (n : UsdaNutrient K) :
    MacroAcc K :=
  let name := lowerStr (n.nutrientName.getD [])
  match n.value with
  | none => acc
  | some val =>
    if containsSub name "energy".toList || containsSub name "kcal".toList then
      { acc with cal := keepFirst acc.cal val }
    else if containsSub name "protein".toList then
      { acc with prot := keepFirst acc.prot val }
    else if containsSub name "carbohydrate".toList then
      { acc with carb := keepFirst acc.carb val }
    else if containsSub name "total lipid".toList ||
        containsSub name "fat".toList then
      { acc with fat := keepFirst acc.fat val }
    else if containsSub name "fiber".toList then
      { acc with fiber := keepFirst acc.fiber val }
    else acc

/-- One USDA `foods` entry (the fields the code reads). -/
structure UsdaFood (K : Type) where
  fdcId : Str
  description : Option Str
  foodNutrients : List (UsdaNutrient K)
  deriving DecidableEq

/-- The USDA `foods/search` response body. -/
structure UsdaPayload (K : Type) where
  foods : List (UsdaFood K)
  deriving DecidableEq

/-- The per-food normalization loop of `_fetch_from_usda`. -/
def usdaToRaw {K : Type} (f : UsdaFood K) : RawRecipe K :=
  let desc :=
    match f.description with
    | some d => if d = [] then "USDA food".toList else d
    | none => "USDA food".toList
  let m := f.foodNutrients.foldl usdaMacroStep ⟨none, none, none, none, none⟩
  { id := "usda_".toList ++ f.fdcId, name := desc, ingredients := [desc],
    diets := [], allergens := [], calories := m.cal, protein := m.prot,
    carbs := m.carb, fat := m.fat, fiber := m.fiber, instructions := none,
    source_url := "https://fdc.nal.usda.gov/fdc-app.html#/food/".toList ++
      f.fdcId,
    source := "usda".toList }

/-- `APIDataAgent._fetch_from_usda`.  There is no `try` here: a bad HTTP
status (`raise_for_status`), a malformed body (`resp.json()`) or an
unreachable host all raise out of this function. -/
def fetchFromUsda {K : Type} (keyPresent : Bool)
    (resp : FetchOutcome (UsdaPayload K)) : Except PyErr (List (RawRecipe K)) :=
  if !keyPresent then .ok []
  else
    match resp with
    | .unreachable => .error .connectionError
    | .response ok parsed =>
      if !ok then .error .httpError
      else
        match parsed with
        | none => .error .parseError
        | some data => .ok (data.foods.map usdaToRaw)

/-- The `APIDataError` raised by `fetch_recipes`. -/
inductive APIErr
  | apiDataError
  deriving DecidableEq

/-- `APIDataAgent.fetch_recipes`: gather providers, rerank, normalise; any
exception inside the `try` is re-raised as `APIDataError`. -/
def fetchRecipes {K : Type} [LinearOrderedField K] (env : NumEnv K)
    (spoonKey usdaKey : Bool) (spoonResp : FetchOutcome (SpoonPayload K))
    (usdaResp : FetchOutcome (UsdaPayload K)) (query : Str)
    (focus : Option Str) (topK : Nat) (includeUsda : Bool) :
    Except APIErr (List (Recipe K)) :=
  -- the `try` block: the sequence of statements, each of which may raise
  let attempt : Except PyErr (List (Recipe K)) :=
    match fetchFromSpoonacular spoonKey spoonResp with
    | .error e => .error e
    | .ok rawS =>
      match (if includeUsda then fetchFromUsda usdaKey usdaResp
             else .ok []) with
      | .error e => .error e
      | .ok rawU =>
        -- `raw = [r for r in raw if isinstance(r, dict)]` keeps everything:
        -- both branches produce raw dicts only
        let raw := rawS ++ rawU
        if raw = [] then .ok []
        else .ok ((rerank env query raw focus topK).map normaliseRecipe)
  -- `except Exception as e: raise APIDataError(...)`
  match attempt with
  | .ok recipes => .ok recipes
  | .error _ => .error .apiDataError

/-! ## Specification-side predicates and concrete instances

Definitions written from the words of the claims (for refinement
comparisons) and the concrete data used by counterexamples and witnesses. -/

/-! ### C7: the pass predicate as the claim words it -/

/-- The normalization of one user restriction label as the claim describes
it: "normalizes (via the fixed synonym table)". -/
def restrictionTag (ρ : Str) : Str := canonicalTag (lowerStr (trimStr ρ))

/-- Claim C7's acceptance predicate **as literally stated**: (1) every
restriction normalizing into the closed enforceable set is present,
case-insensitively, in the candidate's diet tags; (2) no user allergy term
is *exactly equal, case-insensitively* (no substring matching) to any tag
in the candidate's allergen set. -/
def claimDietPass {K : Type} (r : Recipe K) (user : UserProfile) : Prop :=
  (∀ ρ ∈ user.dietary_restrictions,
    restrictionTag ρ ∈ enforceableTags →
      restrictionTag ρ ∈ r.diets.map lowerStr) ∧
  (∀ a ∈ user.allergies, lowerStr a ∉ r.allergens.map lowerStr)

instance {K : Type} (r : Recipe K) (user : UserProfile) :
    Decidable (claimDietPass r user) := by
  unfold claimDietPass; infer_instance

/-- The amended acceptance predicate: as `claimDietPass`, except that an
allergy term is first stripped of surrounding whitespace and lowercased
before the exact-equality check against the (lowercased) allergen tags, and
a term that is empty after stripping imposes no filtering. -/
def specDietPass {K : Type} (r : Recipe K) (user : UserProfile) : Prop :=
  (∀ ρ ∈ user.dietary_restrictions,
    restrictionTag ρ ∈ enforceableTags →
      restrictionTag ρ ∈ r.diets.map lowerStr) ∧
  (∀ a ∈ user.allergies,
    lowerStr (trimStr a) ≠ [] →
      lowerStr (trimStr a) ∉ r.allergens.map lowerStr)

instance {K : Type} (r : Recipe K) (user : UserProfile) :
    Decidable (specDietPass r user) := by
  unfold specDietPass; infer_instance

/-- A candidate carrying the allergen tag `"peanut"`. -/
def peanutRecipe : Recipe ℚ :=
  { (dummyRecipe : Recipe ℚ) with
    recipe_id := "r1".toList, name := "peanut bar".toList,
    allergens := ["peanut".toList] }

/-- A profile whose allergy term carries surrounding whitespace. -/
def padUser : UserProfile :=
  { freshUser "u".toList with allergies := {" peanut".toList} }

/-! ### C5: the Relevance Scorer's score formula and output order -/

/-- C5, spec-side: the nutrient term `0.2 · ln(1 + max(v, 0))` of the
claimed formula. -/
def specNutrTerm {K : Type} [LinearOrderedField K] (mlog : K → K) (v : K) :
    K :=
  (2 / 10 : K) * mlog (1 + max v 0)

/-- C5, spec-side: `combined score = 0.4·coverage + 0.4·similarity +
0.2·ln(1 + max(focus-nutrient value, 0))`. -/
def specCombinedScore {K : Type} [LinearOrderedField K] (mlog : K → K)
    (cov sim v : K) : K :=
  (4 / 10 : K) * cov + (4 / 10 : K) * sim + specNutrTerm mlog v

/-- C5, spec-side: coverage = fraction of non-stopword query tokens found
as a substring of the candidate's name or one of its ingredient strings
(1.0 when no informative tokens remain). -/
def specCoverage {K : Type} [LinearOrderedField K] (raw : RawRecipe K)
    (tokens : List Str) : K :=
  if tokens = [] then 1
  else
    ((tokens.countP (fun t =>
        containsSub (lowerStr raw.name) t ||
          raw.ingredients.any (fun ing => containsSub (lowerStr ing) t))) : K) /
      (tokens.length : K)

/-- C5, spec-side: similarity of the candidate at pool position `idx`
(cosine of the query embedding and the candidate's embedding; 0 when no
embedding is available for it). -/
def specSimilarity {K : Type} [LinearOrderedField K] (msqrt : K → K)
    (queryVec : Option (List K)) (recipeVecs : List (List K)) (idx : Nat) :
    K :=
  match queryVec with
  | some qv =>
    if idx < recipeVecs.length then cosine msqrt qv (recipeVecs.getD idx [])
    else 0
  | none => 0

/-! ### C1: error propagation through the aggregator -/

deriving instance DecidableEq for Except

/-- A concrete numeric environment over `ℚ` for concrete instances
(`mlog` is constantly 0, which satisfies `mlog 1 = 0`; no embedding
client). -/
def zeroEnvQ : NumEnv ℚ := { mlog := fun _ => 0, msqrt := fun x => x, embed := none }

/-- A concrete Spoonacular result. -/
def spoonRecEx : SpoonRec ℚ :=
  { id := "101".toList, title := some "Bean Stew".toList,
    extendedIngredients :=
      [{ nameClean := some "beans".toList, original := none, name := none }],
    diets := ["vegan".toList],
    nutrients := [ { name := some "Calories".toList, amount := some 200 },
                   { name := some "Protein".toList, amount := some 12 } ],
    sourceUrl := none }

/-- A healthy Spoonacular payload with one candidate. -/
def spoonPayloadEx : SpoonPayload ℚ := { message := none, results := [spoonRecEx] }

/-! ### Orchestrator: concrete instances and branch lemmas -/

/-- A default-shaped analysis (everything empty). -/
def emptyAnalysis : Analysis :=
  { objective := none, dietary_restrictions := [], allergies := [],
    likes := [], dislikes := [], inventory := [], wants_meal_plan := false,
    time_horizon := none, query := [] }

/-- A deterministic collaborator bundle over `ℚ`: the intent LLM always
answers `a`, retrieval always succeeds with `recs`, both rerankers return
their input unchanged. -/
def constCollab (a : Analysis) (recs : List (Recipe ℚ)) : Collab ℚ :=
  { analyse := fun _ _ => a,
    fetchRecipes := fun _ _ _ _ => .ok recs,
    ingredientRank := fun l _ => l,
    objectiveRank := fun l _ => l }

/-- Concrete recipes with distinct protein values. -/
def recLow : Recipe ℚ :=
  { (dummyRecipe : Recipe ℚ) with
    recipe_id := "a".toList, name := "lentil soup".toList, protein := some 9 }

def recHigh : Recipe ℚ :=
  { (dummyRecipe : Recipe ℚ) with
    recipe_id := "b".toList, name := "chicken bowl".toList,
    protein := some 30 }

def recNoProt : Recipe ℚ :=
  { (dummyRecipe : Recipe ℚ) with
    recipe_id := "c".toList, name := "tofu plate".toList, protein := none }

/-- A stored profile whose inventory holds one item. -/
def milkUser : UserProfile :=
  { freshUser "u".toList with inventory := {"milk".toList} }

/-- An analysis carrying a restriction and an inventory item. -/
def invAnalysis : Analysis :=
  { emptyAnalysis with
    dietary_restrictions := ["vegan".toList],
    inventory := ["eggs".toList] }


/-! ## Properties -/

section SortRel

variable {α : Type} (r : α → α → Prop) [DecidableRel r]

theorem insertRel_perm (x : α) (l : List α) :
    (insertRel r x l).Perm (x :: l) := by
  induction l with
  | nil => simp [insertRel]
  | cons y ys ih =>
    by_cases hxy : r x y
    · rw [insertRel, if_pos hxy]
    · rw [insertRel, if_neg hxy]
      exact (ih.cons y).trans (List.Perm.swap x y ys)

theorem sortRel_perm : ∀ l : List α, (sortRel r l).Perm l := by
  intro l
  induction l with
  | nil => simp [sortRel]
  | cons x xs ih =>
    exact (insertRel_perm r x (sortRel r xs)).trans (ih.cons x)

theorem mem_insertRel {z x : α} {l : List α} (h : z ∈ insertRel r x l) :
    z = x ∨ z ∈ l := by
  have h2 := (insertRel_perm r x l).mem_iff.1 h
  simpa using h2

theorem insertRel_pairwise (total : ∀ a b, r a b ∨ r b a)
    (htrans : ∀ a b c, r a b → r b c → r a c) (x : α) :
    ∀ l : List α, l.Pairwise r → (insertRel r x l).Pairwise r := by
  intro l
  induction l with
  | nil => intro _; simp [insertRel]
  | cons y ys ih =>
    intro hp
    rw [List.pairwise_cons] at hp
    by_cases hxy : r x y
    · rw [insertRel, if_pos hxy]
      refine List.pairwise_cons.2 ⟨?_, List.pairwise_cons.2 ⟨hp.1, hp.2⟩⟩
      intro z hz
      rcases List.mem_cons.1 hz with hz | hz
      · exact hz ▸ hxy
      · exact htrans x y z hxy (hp.1 z hz)
    · rw [insertRel, if_neg hxy]
      refine List.pairwise_cons.2 ⟨?_, ih hp.2⟩
      intro z hz
      rcases mem_insertRel r hz with hval | hval
      · rcases total x y with h | h
        · exact absurd h hxy
        · exact hval ▸ h
      · exact hp.1 z hval

theorem sortRel_pairwise (total : ∀ a b, r a b ∨ r b a)
    (htrans : ∀ a b c, r a b → r b c → r a c) :
    ∀ l : List α, (sortRel r l).Pairwise r := by
  intro l
  induction l with
  | nil => simp [sortRel]
  | cons x xs ih => exact insertRel_pairwise r total htrans x _ ih

end SortRel
theorem filterRecipes_eq_filter {K : Type} [DecidableEq K]
    (recipes : List (Recipe K)) (user : UserProfile) :
    filterRecipes recipes user = recipes.filter (fun r => decide (dietPass r user)) := by
  induction recipes with
  | nil => rfl
  | cons r rest ih =>
    by_cases h1 : matchesLifestyle r user.dietary_restrictions
    · by_cases h2 : violatesAllergies r user.allergies
      · have : ¬ dietPass r user := fun hp => hp.2 h2
        simp [filterRecipes, h1, h2, List.filter, this, ih]
      · have : dietPass r user := ⟨h1, h2⟩
        simp [filterRecipes, h1, h2, List.filter, this, ih]
    · have : ¬ dietPass r user := fun hp => h1 hp.1
      simp [filterRecipes, h1, List.filter, this, ih]

/-- **C6.** For every candidate list and every user profile, the Dietary
Compliance Filter's output is a subset of its input in which the surviving
candidates appear in the same relative order as in the input (no
reordering, no additions): `filter_recipes` produces a sublist of its
input, namely the elements passing both the lifestyle and the allergy
gate. -/
theorem c6_filter_order_preserving_subset {K : Type} [DecidableEq K]
    (recipes : List (Recipe K)) (user : UserProfile) :
    List.Sublist (filterRecipes recipes user) recipes ∧
      filterRecipes recipes user =
        recipes.filter (fun r => decide (dietPass r user)) := by
  refine ⟨?_, filterRecipes_eq_filter recipes user⟩
  rw [filterRecipes_eq_filter]
  exact List.filter_sublist recipes

/-- **C9.** For every query, candidate list and requested `top_k`, the
Relevance Scorer's output length never exceeds `top_k`; and on an empty
candidate list it returns the empty sequence while performing no
embedding-service call (its call trace is empty, for every embedding
oracle). -/
theorem c9_rerank_topk_and_empty {K : Type} [LinearOrderedField K]
    (env : NumEnv K) (query : Str) (raws : List (RawRecipe K))
    (focus : Option Str) (topK : Nat) :
    (rerankT env query raws focus topK).1.length ≤ topK ∧
      rerankT env query [] focus topK = ([], []) := by
  constructor
  · by_cases h : raws = []
    · simp [rerankT, h]
    · simp only [rerankT, if_neg h, List.length_map, List.length_take]
      exact Nat.min_le_left _ _
  · simp [rerankT]

/-- **C7, counterexample.** The claim's pass predicate as literally stated
(exact case-insensitive equality of allergy terms against allergen tags)
accepts `peanutRecipe` for `padUser` — the allergy term `" peanut"` is not
case-insensitively equal to the tag `"peanut"` — yet `filter_recipes`
excludes the candidate, because the code strips the term to `"peanut"`
before comparing.  So the claimed "if and only if" fails on this input. -/
theorem c7_counterexample :
    claimDietPass peanutRecipe padUser ∧
      filterRecipes [peanutRecipe] padUser = [] := by decide

/-- **C7, amended.** A candidate passes the Dietary Compliance Filter iff
(1) every user restriction that normalizes (strip, lowercase, fixed synonym
table) into the closed set of enforceable diet tags is present,
case-insensitively, in the candidate's diet-tag set — a restriction outside
that set imposes no filtering — and (2) no user allergy term, after
stripping surrounding whitespace and lowercasing (terms empty after
stripping impose no filtering), is exactly equal to any lowercased tag in
the candidate's allergen set (no substring matching). -/
theorem c7_pass_characterisation {K : Type} [DecidableEq K] :
    (∀ (recipes : List (Recipe K)) (user : UserProfile),
       filterRecipes recipes user =
         recipes.filter (fun r => decide (dietPass r user))) ∧
    ∀ (r : Recipe K) (user : UserProfile), dietPass r user ↔ specDietPass r user := by
  constructor
  · exact fun recipes user => filterRecipes_eq_filter recipes user
  · intro r user
    constructor
    · rintro ⟨hml, hna⟩
      constructor
      · intro ρ hρ htag
        by_cases hempty : lowerStr (trimStr ρ) = []
        · exfalso
          have hzero : restrictionTag ρ = [] := by
            unfold restrictionTag
            rw [hempty]
            decide
          rw [hzero] at htag
          exact absurd htag (by decide)
        · refine hml (restrictionTag ρ) ?_ htag
          simp only [normaliseRestrictions, Finset.mem_image, Finset.mem_filter]
          exact ⟨lowerStr (trimStr ρ), ⟨⟨ρ, hρ, rfl⟩, hempty⟩, rfl⟩
      · intro a ha hne hmem
        exact hna ⟨a, ha, hne, hmem⟩
    · rintro ⟨hml, hna⟩
      constructor
      · intro tag htag hE
        simp only [normaliseRestrictions, Finset.mem_image, Finset.mem_filter]
          at htag
        obtain ⟨x, ⟨⟨ρ, hρ, rfl⟩, hne⟩, rfl⟩ := htag
        exact hml ρ hρ hE
      · rintro ⟨a, ha, hne, hmem⟩
        exact hna a ha hne hmem

theorem pairLe_total {K : Type} [LinearOrder K] (p q : K × K) :
    pairLe p q ∨ pairLe q p := by
  rcases lt_trichotomy p.1 q.1 with h | h | h
  · exact Or.inl (Or.inl h)
  · rcases le_total p.2 q.2 with h2 | h2
    · exact Or.inl (Or.inr ⟨h, h2⟩)
    · exact Or.inr (Or.inr ⟨h.symm, h2⟩)
  · exact Or.inr (Or.inl h)

theorem pairLe_trans {K : Type} [LinearOrder K] {p q s : K × K}
    (h1 : pairLe p q) (h2 : pairLe q s) : pairLe p s := by
  rcases h1 with h1 | ⟨h1e, h1le⟩
  · rcases h2 with h2 | ⟨h2e, _⟩
    · exact Or.inl (h1.trans h2)
    · exact Or.inl (h2e ▸ h1)
  · rcases h2 with h2 | ⟨h2e, h2le⟩
    · exact Or.inl (h1e ▸ h2)
    · exact Or.inr ⟨h1e.trans h2e, h1le.trans h2le⟩

theorem ingredientCoverage_eq_spec {K : Type} [LinearOrderedField K]
    (raw : RawRecipe K) (tokens : List Str) :
    ingredientCoverage raw tokens = specCoverage raw tokens := by
  simp only [ingredientCoverage, specCoverage]
  by_cases h : tokens = []
  · simp [h]
  · simp only [if_neg h]
    have hp : (fun t => containsSub (lowerStr raw.name) t ||
          (raw.ingredients.map lowerStr).any fun ing => containsSub ing t) =
        (fun t : Str => containsSub (lowerStr raw.name) t ||
          raw.ingredients.any fun ing => containsSub (lowerStr ing) t) := by
      funext t
      rw [List.any_map]
      rfl
    rw [List.countP_eq_length_filter, hp]

theorem scoreEntry_eq_spec {K : Type} [LinearOrderedField K]
    (env : NumEnv K) (hlog : env.mlog 1 = 0) (tokens : List Str)
    (focus : Option Str) (queryVec : Option (List K))
    (recipeVecs : List (List K)) (idx : Nat) (raw : RawRecipe K) :
    scoreEntry env tokens focus queryVec recipeVecs idx raw =
      { score := specCombinedScore env.mlog (specCoverage raw tokens)
          (specSimilarity env.msqrt queryVec recipeVecs idx)
          (nutrientValue raw focus),
        nutrValue := nutrientValue raw focus,
        recipe := raw } := by
  unfold scoreEntry specCombinedScore specNutrTerm specSimilarity
  rw [ingredientCoverage_eq_spec]
  by_cases h : nutrientValue raw focus = 0
  · simp only [h, if_pos rfl]
    have hmax : (1 : K) + max (0 : K) 0 = 1 := by simp
    rw [hmax, hlog]
    simp
  · simp only [if_neg h]

/-- **C5 (confirmed modulo `ln 1 = 0`, which holds for the real
logarithm).**  For every query, candidate pool, focus nutrient and `top_k`:
the Relevance Scorer scores each candidate with
`0.4·coverage + 0.4·similarity + 0.2·ln(1 + max(focus-nutrient value, 0))`
(coverage as the claim defines it, nutrient term 0 when no focus nutrient
is specified or its value is absent), orders the pool by the pair
(raw focus-nutrient value, combined score), both descending, and returns
the first `top_k` recipes of that order. -/
theorem c5_scorer_formula_and_order {K : Type} [LinearOrderedField K]
    (env : NumEnv K) (query : Str) (raws : List (RawRecipe K))
    (focus : Option Str) (topK : Nat) (hlog : env.mlog 1 = 0) :
    (sortedScored env query raws focus).Pairwise
      (fun a b => pairLe (entryKey b) (entryKey a)) ∧
    (sortedScored env query raws focus).Perm
      (rerankScored env query raws focus) ∧
    rerank env query raws focus topK =
      ((sortedScored env query raws focus).take topK).map (fun s => s.recipe) ∧
    rerankScored env query raws focus =
      raws.enum.map (fun p =>
        { score := specCombinedScore env.mlog
            (specCoverage p.2 (extractQueryTokens query))
            (specSimilarity env.msqrt
              (rerankEmbedded env query (raws.map buildRecipeText)).1
              (rerankEmbedded env query (raws.map buildRecipeText)).2.1 p.1)
            (nutrientValue p.2 focus),
          nutrValue := nutrientValue p.2 focus, recipe := p.2 }) ∧
    (∀ raw : RawRecipe K, nutrientValue raw none = 0) ∧
    (∀ (raw : RawRecipe K) (f : Str) (fld : RawField),
      nutrientFieldMap (lowerStr f) = some fld → rawField raw fld = none →
        nutrientValue raw (some f) = 0) := by
  refine ⟨?_, ?_, ?_, ?_, ?_, ?_⟩
  · exact sortRel_pairwise _
      (fun a b => pairLe_total (entryKey b) (entryKey a))
      (fun a b c h1 h2 => pairLe_trans h2 h1) _
  · exact sortRel_perm _ _
  · by_cases h : raws = []
    · subst h
      simp [rerank, rerankT, sortedScored, rerankScored, sortRel]
    · simp [rerank, rerankT, if_neg h]
  · unfold rerankScored
    refine List.map_congr_left ?_
    intro p _
    exact scoreEntry_eq_spec env hlog _ focus _ _ p.1 p.2
  · intro raw
    rfl
  · intro raw f fld hmap habsent
    have hf : f ≠ [] := by
      intro hnil
      have hnone : nutrientFieldMap (lowerStr ([] : Str)) = none := by decide
      rw [hnil, hnone] at hmap
      exact Option.noConfusion hmap
    simp only [nutrientValue]
    rw [if_neg hf, hmap]
    simp [habsent]

/-- **C1, counterexample.**  Spoonacular is reachable and healthy and
contributes one candidate, USDA (enabled and configured) is unreachable.
The claim says the unreachable provider contributes zero candidates and
the fetch still returns normally with the remaining provider's candidates;
instead `fetch_recipes` aborts the whole call by raising `APIDataError`
(the `requests.get` inside `_fetch_from_usda` raises and nothing catches
it until the blanket `except` of `fetch_recipes`, which re-raises). -/
theorem c1_counterexample :
    fetchFromSpoonacular true (.response true (some spoonPayloadEx)) =
      .ok [spoonToRaw spoonRecEx] ∧
    fetchRecipes zeroEnvQ true true (.response true (some spoonPayloadEx))
      .unreachable "beans".toList none 30 true = .error .apiDataError := by
  decide

theorem fetchFromSpoonacular_degraded {K : Type} (ks ok : Bool)
    (p : Option (SpoonPayload K)) (h : ok = false ∨ p = none) :
    fetchFromSpoonacular ks (.response ok p) = .ok [] := by
  rcases h with h | h
  · subst h
    cases ks <;> rfl
  · subst h
    cases ok <;> cases ks <;> rfl

theorem fetchFromSpoonacular_emptyOk {K : Type} (ks : Bool) :
    fetchFromSpoonacular ks
      (.response true (some ({ message := none, results := [] } :
        SpoonPayload K))) = .ok [] := by
  cases ks <;> rfl

/-- **C1, amended.**  Only failures inside the Spoonacular *response
handling* (an HTTP error status, or a malformed body) degrade to zero
candidates from that provider, the call completing as if Spoonacular had
returned no results — and returning normally when the USDA side is
disabled, unconfigured or healthy.  By contrast, a connection-level
failure of Spoonacular, or (when USDA is enabled and configured) any USDA
failure — connection failure, HTTP error status, or malformed payload —
aborts the whole call: `fetch_recipes` raises `APIDataError` past the
aggregator boundary, discarding any candidates gathered from the other
provider. -/
theorem c1_amended_error_propagation {K : Type} [LinearOrderedField K]
    (env : NumEnv K) (ks ku : Bool) (spoonResp : FetchOutcome (SpoonPayload K))
    (usdaResp : FetchOutcome (UsdaPayload K)) (query : Str)
    (focus : Option Str) (topK : Nat) (includeUsda : Bool) :
    (∀ ok p, spoonResp = .response ok p → ok = false ∨ p = none →
      fetchRecipes env ks ku spoonResp usdaResp query focus topK includeUsda =
        fetchRecipes env ks ku
          (.response true (some { message := none, results := [] }))
          usdaResp query focus topK includeUsda) ∧
    (∀ ok p, spoonResp = .response ok p → ok = false ∨ p = none →
      includeUsda = false ∨ ku = false ∨
        (∃ d, usdaResp = .response true (some d)) →
      ∃ l, fetchRecipes env ks ku spoonResp usdaResp query focus topK
        includeUsda = .ok l) ∧
    (includeUsda = true → ku = true →
      (usdaResp = .unreachable ∨ (∃ q0, usdaResp = .response false q0) ∨
        usdaResp = .response true none) →
      fetchRecipes env ks ku spoonResp usdaResp query focus topK includeUsda =
        .error .apiDataError) ∧
    (ks = true → spoonResp = .unreachable →
      fetchRecipes env ks ku spoonResp usdaResp query focus topK includeUsda =
        .error .apiDataError) := by
  refine ⟨?_, ?_, ?_, ?_⟩
  · rintro ok p rfl hok
    unfold fetchRecipes
    rw [fetchFromSpoonacular_degraded ks ok p hok,
      fetchFromSpoonacular_emptyOk ks]
  · rintro ok p rfl hok husda
    unfold fetchRecipes
    rw [fetchFromSpoonacular_degraded ks ok p hok]
    rcases husda with h | h | ⟨d, h⟩
    · subst h
      exact ⟨[], rfl⟩
    · subst h
      cases includeUsda <;> exact ⟨[], rfl⟩
    · subst h
      cases includeUsda
      · exact ⟨[], rfl⟩
      · cases ku
        · exact ⟨[], rfl⟩
        · have husda2 : fetchFromUsda (K := K) true (.response true (some d)) =
              .ok (d.foods.map usdaToRaw) := rfl
          by_cases hr : d.foods.map usdaToRaw = []
          · exact ⟨[], by simp [husda2, hr]⟩
          · exact ⟨(rerank env query (d.foods.map usdaToRaw) focus
              topK).map normaliseRecipe, by simp [husda2, hr]⟩
  · rintro rfl rfl hfail
    have hu : ∃ e, fetchFromUsda (K := K) true usdaResp = .error e := by
      rcases hfail with h | ⟨q0, h⟩ | h
      · subst h
        exact ⟨.connectionError, rfl⟩
      · subst h
        exact ⟨.httpError, rfl⟩
      · subst h
        exact ⟨.parseError, rfl⟩
    obtain ⟨e, he⟩ := hu
    unfold fetchRecipes
    cases hS : fetchFromSpoonacular ks spoonResp with
    | error e2 => simp [hS]
    | ok rawS => simp [hS, he]
  · rintro rfl rfl
    rfl

/-- Witness for the amended C1 theorem: a Spoonacular HTTP-error response
with USDA disabled completes normally with zero candidates. -/
theorem c1_witness :
    ((FetchOutcome.response false (some spoonPayloadEx) :
        FetchOutcome (SpoonPayload ℚ)) =
      .response false (some spoonPayloadEx)) ∧
    ((false = false ∨ (some spoonPayloadEx : Option (SpoonPayload ℚ)) = none)) ∧
    ((false = false ∨ true = false ∨
      (∃ d, (FetchOutcome.unreachable : FetchOutcome (UsdaPayload ℚ)) =
        .response true (some d)))) ∧
    ∃ l, fetchRecipes zeroEnvQ true true
      (.response false (some spoonPayloadEx))
      (.unreachable : FetchOutcome (UsdaPayload ℚ))
      "beans".toList none 30 false = .ok l :=
  ⟨rfl, Or.inl rfl, Or.inl rfl,
    (c1_amended_error_propagation zeroEnvQ true true
      (.response false (some spoonPayloadEx)) .unreachable
      "beans".toList none 30 false).2.1 false (some spoonPayloadEx) rfl
      (Or.inl rfl) (Or.inl rfl)⟩

theorem handleMessage_clear {K : Type} [LinearOrderedField K] (C : Collab K)
    (stored : Option UserProfile) (lastList : List (Recipe K))
    (username message : Str) (extraInventory : List Str)
    (h : containsClearPhrase message = true) :
    handleMessage C stored lastList username message extraInventory =
      .ok { recipes := [], analysis := .inventoryCleared,
            user := { stored.getD (freshUser username) with inventory := ∅ },
            savedProfile :=
              { stored.getD (freshUser username) with inventory := ∅ },
            savedContext := "INVENTORY_CLEARED".toList,
            newLast := lastList } := by
  simp [handleMessage, h]

theorem handleMessage_detail {K : Type} [LinearOrderedField K] (C : Collab K)
    (stored : Option UserProfile) (lastList : List (Recipe K))
    (username message : Str) (extraInventory : List Str)
    (hclear : containsClearPhrase message = false)
    (hguard : detailGuard lastList message = true) :
    handleMessage C stored lastList username message extraInventory =
      .ok (detailTurn lastList (stored.getD (freshUser username))
        ((extractIndex message).getD 0)) := by
  simp [handleMessage, hclear, hguard]

theorem handleMessage_normal {K : Type} [LinearOrderedField K] (C : Collab K)
    (stored : Option UserProfile) (lastList : List (Recipe K))
    (username message : Str) (extraInventory : List Str)
    (hclear : containsClearPhrase message = false)
    (hguard : detailGuard lastList message = false) :
    handleMessage C stored lastList username message extraInventory =
      normalTurn C (stored.getD (freshUser username)) lastList message
        extraInventory := by
  simp [handleMessage, hclear, hguard]

theorem updateProfile_sets (user : UserProfile) (a : Analysis) :
    (updateProfile user a).dietary_restrictions =
      user.dietary_restrictions ∪ a.dietary_restrictions.toFinset ∧
    (updateProfile user a).allergies = user.allergies ∪ a.allergies.toFinset ∧
    (updateProfile user a).likes = user.likes ∪ a.likes.toFinset ∧
    (updateProfile user a).dislikes = user.dislikes ∪ a.dislikes.toFinset ∧
    (a.inventory = [] → (updateProfile user a).inventory = user.inventory) ∧
    (a.inventory ≠ [] →
      (updateProfile user a).inventory = a.inventory.toFinset) := by
  unfold updateProfile
  cases ho : a.objective with
  | none => by_cases hinv : a.inventory = [] <;> simp [hinv]
  | some o =>
    by_cases ho2 : o = [] <;> by_cases hinv : a.inventory = [] <;>
      simp [ho2, hinv]

theorem normalTurn_userOf {K : Type} [LinearOrderedField K] (C : Collab K)
    (user0 : UserProfile) (lastList : List (Recipe K)) (message : Str)
    (extraInventory : List Str) :
    ∀ u, userOf (normalTurn C user0 lastList message extraInventory) = some u →
      u = updateProfile user0
        (mergeExtra (C.analyse user0 message) extraInventory) := by
  intro u hu
  simp only [normalTurn] at hu
  split at hu
  · simp [userOf] at hu
    exact hu.symm
  · split at hu
    · simp [userOf] at hu
    · split at hu
      · simp [userOf] at hu
        exact hu.symm
      · simp [userOf] at hu
        exact hu.symm

theorem inferFocus_keyMap (message : Str) (a : Analysis) (f : Str)
    (h : inferFocusNutrient message a = some f) :
    ∃ fld, keyMapLookup (lowerStr f) = some fld := by
  have hf : f = "fiber".toList ∨ f = "protein".toList ∨
      f = "calories".toList := by
    simp only [inferFocusNutrient] at h
    split_ifs at h <;>
      first
        | exact Or.inl (Option.some.inj h).symm
        | exact Or.inr (Or.inl (Option.some.inj h).symm)
        | exact Or.inr (Or.inr (Option.some.inj h).symm)
  rcases hf with rfl | rfl | rfl
  · exact ⟨.fiber, by decide⟩
  · exact ⟨.protein, by decide⟩
  · exact ⟨.calories, by decide⟩

theorem sortByFocusNutrient_pairwise {K : Type} [LinearOrderedField K]
    (recipes : List (Recipe K)) (f : Str) (fld : MacroField)
    (hmap : keyMapLookup (lowerStr f) = some fld) :
    (sortByFocusNutrient recipes (some f)).Pairwise
      (fun a b => macroKey fld b ≤ macroKey fld a) := by
  have hf : ¬ f = [] := by
    intro h
    have hnone : keyMapLookup (lowerStr ([] : Str)) = none := by decide
    rw [h, hnone] at hmap
    exact Option.noConfusion hmap
  simp only [sortByFocusNutrient]
  cases hr : recipes.isEmpty
  · rw [if_neg (by simp [hf])]
    rw [hmap]
    exact sortRel_pairwise (fun a b => macroKey fld b ≤ macroKey fld a)
      (fun a b => le_total _ _) (fun a b c h1 h2 => le_trans h2 h1) recipes
  · have hnil : recipes = [] := by
      cases recipes with
      | nil => rfl
      | cons x xs => simp [List.isEmpty] at hr
    subst hnil
    simp

/-- The four possible outcomes of a normal-mode turn. -/
theorem normalTurn_cases {K : Type} [LinearOrderedField K] (C : Collab K)
    (user0 : UserProfile) (lastList : List (Recipe K)) (message : Str)
    (extraInventory : List Str) :
    (buildRecipeQuery (mergeExtra (C.analyse user0 message) extraInventory)
        message = none ∧
      normalTurn C user0 lastList message extraInventory =
        .ok { recipes := [],
              analysis := .normalNoQuery
                (mergeExtra (C.analyse user0 message) extraInventory),
              user := updateProfile user0
                (mergeExtra (C.analyse user0 message) extraInventory),
              savedProfile := updateProfile user0
                (mergeExtra (C.analyse user0 message) extraInventory),
              savedContext := "NO_VALID_QUERY".toList,
              newLast := lastList }) ∨
    (∃ e, normalTurn C user0 lastList message extraInventory = .error e) ∨
    (normalTurn C user0 lastList message extraInventory =
      .ok { recipes := [],
            analysis := .normal
              (mergeExtra (C.analyse user0 message) extraInventory)
              (inferFocusNutrient message
                (mergeExtra (C.analyse user0 message) extraInventory)),
            user := updateProfile user0
              (mergeExtra (C.analyse user0 message) extraInventory),
            savedProfile := updateProfile user0
              (mergeExtra (C.analyse user0 message) extraInventory),
            savedContext := "ANALYSIS: ".toList,
            newLast := [] }) ∨
    (∃ pool : List (Recipe K),
      normalTurn C user0 lastList message extraInventory =
        .ok { recipes := sortByFocusNutrient
                (C.objectiveRank
                  (C.ingredientRank pool
                    (updateProfile user0
                      (mergeExtra (C.analyse user0 message) extraInventory)))
                  (updateProfile user0
                    (mergeExtra (C.analyse user0 message) extraInventory)))
                (inferFocusNutrient message
                  (mergeExtra (C.analyse user0 message) extraInventory)),
              analysis := .normal
                (mergeExtra (C.analyse user0 message) extraInventory)
                (inferFocusNutrient message
                  (mergeExtra (C.analyse user0 message) extraInventory)),
              user := updateProfile user0
                (mergeExtra (C.analyse user0 message) extraInventory),
              savedProfile := updateProfile user0
                (mergeExtra (C.analyse user0 message) extraInventory),
              savedContext := "ANALYSIS: ".toList,
              newLast := sortByFocusNutrient
                (C.objectiveRank
                  (C.ingredientRank pool
                    (updateProfile user0
                      (mergeExtra (C.analyse user0 message) extraInventory)))
                  (updateProfile user0
                    (mergeExtra (C.analyse user0 message) extraInventory)))
                (inferFocusNutrient message
                  (mergeExtra (C.analyse user0 message) extraInventory)) }) := by
  rcases hq : buildRecipeQuery
      (mergeExtra (C.analyse user0 message) extraInventory) message with _ | q
  · exact Or.inl ⟨rfl, by simp only [normalTurn, hq]⟩
  · rcases hf : C.fetchRecipes q
        (inferFocusNutrient message
          (mergeExtra (C.analyse user0 message) extraInventory)) 30
        (wantsUsda message
          (mergeExtra (C.analyse user0 message) extraInventory)) with e | all
    · refine Or.inr (Or.inl ⟨e, ?_⟩)
      simp only [normalTurn, hq, hf]
    · cases hb : (filterRecipes all
          (updateProfile user0
            (mergeExtra (C.analyse user0 message) extraInventory))).isEmpty
      · refine Or.inr (Or.inr (Or.inr ⟨filterRecipes all
          (updateProfile user0
            (mergeExtra (C.analyse user0 message) extraInventory)), ?_⟩))
        simp only [normalTurn, hq, hf, hb]
        rfl
      · refine Or.inr (Or.inr (Or.inl ?_))
        simp only [normalTurn, hq, hf, hb]
        rfl

/-- **C2.** For every user with a non-empty cached last-recommendations
list of length `L`, a message that resolves to a 1-based index `n` with
`1 ≤ n ≤ L` and contains recipe/ingredient/instruction-seeking vocabulary
makes the turn return exactly the single cached recipe at position `n`,
unmodified, with the profile untouched and the cached list left unchanged;
the result is the same for every collaborator bundle (no retrieval, no LLM
call).  A resolved index outside `1..L` never throws: the turn falls
through to normal-mode handling.  (The inventory-clear phrase check runs
first in the code, hence the `hclear` hypothesis.) -/
theorem c2_detail_mode {K : Type} [LinearOrderedField K] (C : Collab K)
    (stored : Option UserProfile) (lastList : List (Recipe K))
    (username message : Str) (extraInventory : List Str) (n : Nat)
    (hclear : containsClearPhrase message = false)
    (hlast : lastList ≠ [])
    (hidx : extractIndex message = some n)
    (hdet : isDetailRequest message = true) :
    (∀ (hlo : 1 ≤ n) (hhi : n ≤ lastList.length),
      handleMessage C stored lastList username message extraInventory =
        .ok (detailTurn lastList (stored.getD (freshUser username)) n) ∧
      (detailTurn lastList (stored.getD (freshUser username)) n).recipes =
        [lastList.get ⟨n - 1, by omega⟩] ∧
      (detailTurn lastList (stored.getD (freshUser username)) n).newLast =
        lastList ∧
      (detailTurn lastList (stored.getD (freshUser username)) n).user =
        stored.getD (freshUser username)) ∧
    (¬ (1 ≤ n ∧ n ≤ lastList.length) →
      handleMessage C stored lastList username message extraInventory =
        normalTurn C (stored.getD (freshUser username)) lastList message
          extraInventory) := by
  constructor
  · intro hlo hhi
    have hguard : detailGuard lastList message = true := by
      simp [detailGuard, hidx, hlast, hdet, hlo, hhi]
    refine ⟨?_, ?_, rfl, rfl⟩
    · rw [handleMessage_detail C stored lastList username message
        extraInventory hclear hguard, hidx]
      rfl
    · have hlt : n - 1 < lastList.length := by omega
      simp [detailTurn, List.getElem?_eq_getElem hlt, List.get_eq_getElem]
  · intro hout
    have hguard : detailGuard lastList message = false := by
      have h2 : (decide (1 ≤ n) && decide (n ≤ lastList.length)) = false := by
        by_cases h1 : 1 ≤ n
        · have h3 : ¬ n ≤ lastList.length := fun hle => hout ⟨h1, hle⟩
          simp [h3]
        · simp [h1]
      simp [detailGuard, hidx, h2]
    exact handleMessage_normal C stored lastList username message
      extraInventory hclear hguard

/-- **C3 (amended).** In every completed normal-mode turn the profile's
restriction/allergy/like/dislike sets only grow (supersets of their values
before the turn); the inventory is replaced by the turn's merged inventory
snapshot (analysis inventory unioned with the side-channel hint, duplicates
removed) **when that snapshot is non-empty**, and is left unchanged when
the snapshot is empty. -/
theorem c3_profile_update {K : Type} [LinearOrderedField K] (C : Collab K)
    (stored : Option UserProfile) (lastList : List (Recipe K))
    (username message : Str) (extraInventory : List Str) (u' : UserProfile)
    (hclear : containsClearPhrase message = false)
    (hguard : detailGuard lastList message = false)
    (hres : userOf (handleMessage C stored lastList username message
      extraInventory) = some u') :
    (stored.getD (freshUser username)).dietary_restrictions ⊆
      u'.dietary_restrictions ∧
    (stored.getD (freshUser username)).allergies ⊆ u'.allergies ∧
    (stored.getD (freshUser username)).likes ⊆ u'.likes ∧
    (stored.getD (freshUser username)).dislikes ⊆ u'.dislikes ∧
    ((mergeExtra (C.analyse (stored.getD (freshUser username)) message)
        extraInventory).inventory ≠ [] →
      u'.inventory = (mergeExtra
        (C.analyse (stored.getD (freshUser username)) message)
        extraInventory).inventory.toFinset) ∧
    ((mergeExtra (C.analyse (stored.getD (freshUser username)) message)
        extraInventory).inventory = [] →
      u'.inventory = (stored.getD (freshUser username)).inventory) := by
  rw [handleMessage_normal C stored lastList username message extraInventory
    hclear hguard] at hres
  have hu := normalTurn_userOf C (stored.getD (freshUser username)) lastList
    message extraInventory u' hres
  subst hu
  obtain ⟨h1, h2, h3, h4, h5, h6⟩ := updateProfile_sets
    (stored.getD (freshUser username))
    (mergeExtra (C.analyse (stored.getD (freshUser username)) message)
      extraInventory)
  refine ⟨?_, ?_, ?_, ?_, h6, h5⟩
  · rw [h1]
    exact Finset.subset_union_left
  · rw [h2]
    exact Finset.subset_union_left
  · rw [h3]
    exact Finset.subset_union_left
  · rw [h4]
    exact Finset.subset_union_left

/-- **C3, counterexample.** The claim as stated says that in every
normal-mode turn the inventory is *fully replaced* by the turn's extracted
inventory snapshot (merged with the side-channel hint).  Here the turn's
snapshot is empty while the stored inventory holds `"milk"`: after the
turn, the inventory is still `{"milk"}`, not the (empty) snapshot — the
code replaces only when the snapshot is non-empty. -/
theorem c3_counterexample :
    invOf (handleMessage (constCollab emptyAnalysis []) (some milkUser) []
        "u".toList "chicken curry dinner".toList []) =
      some {"milk".toList} ∧
    (mergeExtra ((constCollab emptyAnalysis []).analyse milkUser
        "chicken curry dinner".toList) []).inventory = [] ∧
    ({"milk".toList} : Finset Str) ≠ (∅ : Finset Str) := by decide

/-- **C4.** Whenever a completed turn records an inferred focus nutrient
`f`, the final recommendation list returned by the orchestrator is sorted
in non-increasing order of that nutrient's raw value (a missing value
counting as 0).  The property holds for *every* collaborator bundle — in
particular for every behaviour of the two LLM rerankers, whose order the
final sort overrides. -/
theorem c4_focus_nutrient_ordering {K : Type} [LinearOrderedField K]
    (C : Collab K) (stored : Option UserProfile)
    (lastList : List (Recipe K)) (username message : Str)
    (extraInventory : List Str) (f : Str)
    (hfoc : focusOf (handleMessage C stored lastList username message
      extraInventory) = some (some f)) :
    ∃ fld, keyMapLookup (lowerStr f) = some fld ∧
      (recipesOf (handleMessage C stored lastList username message
        extraInventory)).Pairwise
        (fun a b => macroKey fld b ≤ macroKey fld a) := by
  by_cases hclear : containsClearPhrase message = true
  · rw [handleMessage_clear C stored lastList username message
      extraInventory hclear] at hfoc
    simp [focusOf] at hfoc
  · have hclear2 : containsClearPhrase message = false := by
      revert hclear
      cases containsClearPhrase message <;> simp
    by_cases hguard : detailGuard lastList message = true
    · rw [handleMessage_detail C stored lastList username message
        extraInventory hclear2 hguard] at hfoc
      simp [focusOf, detailTurn] at hfoc
    · have hguard2 : detailGuard lastList message = false := by
        revert hguard
        cases detailGuard lastList message <;> simp
      rw [handleMessage_normal C stored lastList username message
        extraInventory hclear2 hguard2] at hfoc ⊢
      rcases normalTurn_cases C (stored.getD (freshUser username)) lastList
          message extraInventory with
        ⟨hq, heq⟩ | ⟨e, heq⟩ | heq | ⟨pool, heq⟩
      · rw [heq] at hfoc
        simp [focusOf] at hfoc
      · rw [heq] at hfoc
        simp [focusOf] at hfoc
      · rw [heq] at hfoc ⊢
        simp only [focusOf, Option.some.injEq] at hfoc
        obtain ⟨fld, hfld⟩ := inferFocus_keyMap message _ f hfoc
        exact ⟨fld, hfld, by simp [recipesOf]⟩
      · rw [heq] at hfoc ⊢
        simp only [focusOf, Option.some.injEq] at hfoc
        obtain ⟨fld, hfld⟩ := inferFocus_keyMap message _ f hfoc
        refine ⟨fld, hfld, ?_⟩
        simp only [recipesOf]
        rw [hfoc]
        exact sortByFocusNutrient_pairwise _ f fld hfld

/-- **C8.** A normal-mode turn whose merged analysis carries no usable
inventory items and whose message keeps fewer than two content tokens
after phrase-stripping and stopword removal fails query formation: the
turn ends early with an empty recommendation list returned as a normal
(`.ok`) result, the updated profile is still persisted, and the saved
context is the distinguishing `NO_VALID_QUERY` marker (the cached
last-recommendations list is left alone). -/
theorem c8_query_formation_failure {K : Type} [LinearOrderedField K]
    (C : Collab K) (stored : Option UserProfile)
    (lastList : List (Recipe K)) (username message : Str)
    (extraInventory : List Str)
    (hclear : containsClearPhrase message = false)
    (hguard : detailGuard lastList message = false)
    (hinv : inventoryItems (mergeExtra
      (C.analyse (stored.getD (freshUser username)) message)
      extraInventory).inventory = [])
    (htok : (msgKeywords message).length < 2) :
    buildRecipeQuery (mergeExtra
      (C.analyse (stored.getD (freshUser username)) message)
      extraInventory) message = none ∧
    handleMessage C stored lastList username message extraInventory =
      .ok { recipes := [],
            analysis := .normalNoQuery (mergeExtra
              (C.analyse (stored.getD (freshUser username)) message)
              extraInventory),
            user := updateProfile (stored.getD (freshUser username))
              (mergeExtra
                (C.analyse (stored.getD (freshUser username)) message)
                extraInventory),
            savedProfile := updateProfile (stored.getD (freshUser username))
              (mergeExtra
                (C.analyse (stored.getD (freshUser username)) message)
                extraInventory),
            savedContext := "NO_VALID_QUERY".toList,
            newLast := lastList } := by
  have hq : buildRecipeQuery (mergeExtra
      (C.analyse (stored.getD (freshUser username)) message)
      extraInventory) message = none := by
    simp only [buildRecipeQuery, hinv]
    have h2 : ¬ (msgKeywords message).length ≥ 2 := by omega
    simp [h2]
  refine ⟨hq, ?_⟩
  rw [handleMessage_normal C stored lastList username message extraInventory
    hclear hguard]
  simp only [normalTurn, hq]

/-- **C10.** Inventory lifecycle: (a) an inventory-clear message clears the
inventory and ends the turn before any analysis (the result does not
depend on any collaborator); (b) a completed normal-mode turn whose merged
analysis inventory is empty leaves the stored inventory unchanged, and one
whose merged inventory is non-empty replaces it by that snapshot; (c) if a
completed turn turned a non-empty inventory into an empty one, the message
contained an inventory-clear phrase — no other message path empties the
inventory. -/
theorem c10_inventory_lifecycle {K : Type} [LinearOrderedField K]
    (C : Collab K) (stored : Option UserProfile)
    (lastList : List (Recipe K)) (username message : Str)
    (extraInventory : List Str) :
    (containsClearPhrase message = true →
      handleMessage C stored lastList username message extraInventory =
        .ok { recipes := [], analysis := .inventoryCleared,
              user := { stored.getD (freshUser username) with
                inventory := ∅ },
              savedProfile := { stored.getD (freshUser username) with
                inventory := ∅ },
              savedContext := "INVENTORY_CLEARED".toList,
              newLast := lastList }) ∧
    (containsClearPhrase message = false →
      detailGuard lastList message = false →
      (mergeExtra (C.analyse (stored.getD (freshUser username)) message)
        extraInventory).inventory = [] →
      ∀ u', userOf (handleMessage C stored lastList username message
        extraInventory) = some u' →
        u'.inventory = (stored.getD (freshUser username)).inventory) ∧
    (containsClearPhrase message = false →
      detailGuard lastList message = false →
      (mergeExtra (C.analyse (stored.getD (freshUser username)) message)
        extraInventory).inventory ≠ [] →
      ∀ u', userOf (handleMessage C stored lastList username message
        extraInventory) = some u' →
        u'.inventory = (mergeExtra
          (C.analyse (stored.getD (freshUser username)) message)
          extraInventory).inventory.toFinset) ∧
    ((stored.getD (freshUser username)).inventory ≠ (∅ : Finset Str) →
      ∀ u', userOf (handleMessage C stored lastList username message
        extraInventory) = some u' →
        u'.inventory = (∅ : Finset Str) →
        containsClearPhrase message = true) := by
  refine ⟨?_, ?_, ?_, ?_⟩
  · intro hclear
    exact handleMessage_clear C stored lastList username message
      extraInventory hclear
  · intro hclear hguard hmerged u' hres
    rw [handleMessage_normal C stored lastList username message
      extraInventory hclear hguard] at hres
    have hu := normalTurn_userOf C (stored.getD (freshUser username))
      lastList message extraInventory u' hres
    subst hu
    exact (updateProfile_sets _ _).2.2.2.2.1 hmerged
  · intro hclear hguard hmerged u' hres
    rw [handleMessage_normal C stored lastList username message
      extraInventory hclear hguard] at hres
    have hu := normalTurn_userOf C (stored.getD (freshUser username))
      lastList message extraInventory u' hres
    subst hu
    exact (updateProfile_sets _ _).2.2.2.2.2 hmerged
  · intro hne u' hres hempty
    by_cases hclear : containsClearPhrase message = true
    · exact hclear
    · exfalso
      have hclear2 : containsClearPhrase message = false := by
        revert hclear
        cases containsClearPhrase message <;> simp
      by_cases hguard : detailGuard lastList message = true
      · rw [handleMessage_detail C stored lastList username message
          extraInventory hclear2 hguard] at hres
        simp [userOf, detailTurn] at hres
        rw [← hres] at hempty
        exact hne hempty
      · have hguard2 : detailGuard lastList message = false := by
          revert hguard
          cases detailGuard lastList message <;> simp
        rw [handleMessage_normal C stored lastList username message
          extraInventory hclear2 hguard2] at hres
        have hu := normalTurn_userOf C (stored.getD (freshUser username))
          lastList message extraInventory u' hres
        subst hu
        by_cases hmerged : (mergeExtra
            (C.analyse (stored.getD (freshUser username)) message)
            extraInventory).inventory = []
        · rw [(updateProfile_sets _ _).2.2.2.2.1 hmerged] at hempty
          exact hne hempty
        · rw [(updateProfile_sets _ _).2.2.2.2.2 hmerged] at hempty
          rcases List.exists_mem_of_ne_nil _ hmerged with ⟨x, hx⟩
          exact absurd hempty
            (Finset.ne_empty_of_mem (List.mem_toFinset.mpr hx))

/-- Witness for C2: "show me recipe number 2" against a two-element cache
returns exactly the second cached recipe and leaves the cache unchanged. -/
theorem c2_witness :
    containsClearPhrase "show me recipe number 2".toList = false ∧
    ([recLow, recHigh] : List (Recipe ℚ)) ≠ [] ∧
    extractIndex "show me recipe number 2".toList = some 2 ∧
    isDetailRequest "show me recipe number 2".toList = true ∧
    1 ≤ 2 ∧ 2 ≤ ([recLow, recHigh] : List (Recipe ℚ)).length ∧
    (handleMessage (constCollab emptyAnalysis []) none [recLow, recHigh]
        "u".toList "show me recipe number 2".toList [] =
      .ok (detailTurn [recLow, recHigh]
        ((none : Option UserProfile).getD (freshUser "u".toList)) 2) ∧
    (detailTurn [recLow, recHigh]
      ((none : Option UserProfile).getD (freshUser "u".toList)) 2).recipes =
      [([recLow, recHigh] : List (Recipe ℚ)).get ⟨2 - 1, by decide⟩] ∧
    (detailTurn [recLow, recHigh]
      ((none : Option UserProfile).getD (freshUser "u".toList)) 2).newLast =
      [recLow, recHigh] ∧
    (detailTurn [recLow, recHigh]
      ((none : Option UserProfile).getD (freshUser "u".toList)) 2).user =
      (none : Option UserProfile).getD (freshUser "u".toList)) :=
  ⟨by decide, by decide, by decide, by decide, by decide, by decide,
    (c2_detail_mode (constCollab emptyAnalysis []) none [recLow, recHigh]
      "u".toList "show me recipe number 2".toList [] 2
      (by decide) (by decide) (by decide) (by decide)).1
      (by decide) (by decide)⟩

/-- Witness for the amended C3 at a concrete normal-mode turn whose
analysis adds a restriction and supplies a non-empty inventory snapshot. -/
theorem c3_witness :
    containsClearPhrase "chicken curry dinner".toList = false ∧
    detailGuard ([] : List (Recipe ℚ)) "chicken curry dinner".toList = false ∧
    userOf (handleMessage (constCollab invAnalysis []) (some milkUser) []
        "u".toList "chicken curry dinner".toList []) =
      some (updateProfile ((some milkUser).getD (freshUser "u".toList))
        (mergeExtra ((constCollab invAnalysis []).analyse
          ((some milkUser).getD (freshUser "u".toList))
          "chicken curry dinner".toList) [])) ∧
    (((some milkUser).getD (freshUser "u".toList)).dietary_restrictions ⊆
      (updateProfile ((some milkUser).getD (freshUser "u".toList))
        (mergeExtra ((constCollab invAnalysis []).analyse
          ((some milkUser).getD (freshUser "u".toList))
          "chicken curry dinner".toList) [])).dietary_restrictions ∧
    ((some milkUser).getD (freshUser "u".toList)).allergies ⊆
      (updateProfile ((some milkUser).getD (freshUser "u".toList))
        (mergeExtra ((constCollab invAnalysis []).analyse
          ((some milkUser).getD (freshUser "u".toList))
          "chicken curry dinner".toList) [])).allergies ∧
    ((some milkUser).getD (freshUser "u".toList)).likes ⊆
      (updateProfile ((some milkUser).getD (freshUser "u".toList))
        (mergeExtra ((constCollab invAnalysis []).analyse
          ((some milkUser).getD (freshUser "u".toList))
          "chicken curry dinner".toList) [])).likes ∧
    ((some milkUser).getD (freshUser "u".toList)).dislikes ⊆
      (updateProfile ((some milkUser).getD (freshUser "u".toList))
        (mergeExtra ((constCollab invAnalysis []).analyse
          ((some milkUser).getD (freshUser "u".toList))
          "chicken curry dinner".toList) [])).dislikes ∧
    ((mergeExtra ((constCollab invAnalysis []).analyse
        ((some milkUser).getD (freshUser "u".toList))
        "chicken curry dinner".toList) []).inventory ≠ [] →
      (updateProfile ((some milkUser).getD (freshUser "u".toList))
        (mergeExtra ((constCollab invAnalysis []).analyse
          ((some milkUser).getD (freshUser "u".toList))
          "chicken curry dinner".toList) [])).inventory =
        (mergeExtra ((constCollab invAnalysis []).analyse
          ((some milkUser).getD (freshUser "u".toList))
          "chicken curry dinner".toList) []).inventory.toFinset) ∧
    ((mergeExtra ((constCollab invAnalysis []).analyse
        ((some milkUser).getD (freshUser "u".toList))
        "chicken curry dinner".toList) []).inventory = [] →
      (updateProfile ((some milkUser).getD (freshUser "u".toList))
        (mergeExtra ((constCollab invAnalysis []).analyse
          ((some milkUser).getD (freshUser "u".toList))
          "chicken curry dinner".toList) [])).inventory =
        ((some milkUser).getD (freshUser "u".toList)).inventory)) :=
  ⟨by decide, by decide, by decide,
    c3_profile_update (constCollab invAnalysis []) (some milkUser) []
      "u".toList "chicken curry dinner".toList []
      (updateProfile ((some milkUser).getD (freshUser "u".toList))
        (mergeExtra ((constCollab invAnalysis []).analyse
          ((some milkUser).getD (freshUser "u".toList))
          "chicken curry dinner".toList) []))
      (by decide) (by decide) (by decide)⟩

/-- Witness for C4: a "high protein" request whose retrieval yields protein
values 9, missing, 30 comes back sorted 30, 9, missing-as-0. -/
theorem c4_witness :
    focusOf (handleMessage
        (constCollab emptyAnalysis [recLow, recNoProt, recHigh]) none []
        "u".toList "high protein dinner ideas".toList []) =
      some (some "protein".toList) ∧
    ∃ fld, keyMapLookup (lowerStr "protein".toList) = some fld ∧
      (recipesOf (handleMessage
        (constCollab emptyAnalysis [recLow, recNoProt, recHigh]) none []
        "u".toList "high protein dinner ideas".toList [])).Pairwise
        (fun a b => macroKey fld b ≤ macroKey fld a) :=
  ⟨by decide,
    c4_focus_nutrient_ordering
      (constCollab emptyAnalysis [recLow, recNoProt, recHigh]) none []
      "u".toList "high protein dinner ideas".toList [] "protein".toList
      (by decide)⟩

/-- Witness for C5 at a concrete pool over `ℚ` (with `mlog` interpreting
`math.log` as the constant-zero map, which satisfies `mlog 1 = 0`). -/
theorem c5_witness :
    zeroEnvQ.mlog 1 = 0 ∧
    ((sortedScored zeroEnvQ "beans".toList [spoonToRaw spoonRecEx]
        (some "protein".toList)).Pairwise
      (fun a b => pairLe (entryKey b) (entryKey a)) ∧
    (sortedScored zeroEnvQ "beans".toList [spoonToRaw spoonRecEx]
        (some "protein".toList)).Perm
      (rerankScored zeroEnvQ "beans".toList [spoonToRaw spoonRecEx]
        (some "protein".toList)) ∧
    rerank zeroEnvQ "beans".toList [spoonToRaw spoonRecEx]
        (some "protein".toList) 5 =
      ((sortedScored zeroEnvQ "beans".toList [spoonToRaw spoonRecEx]
        (some "protein".toList)).take 5).map (fun s => s.recipe) ∧
    rerankScored zeroEnvQ "beans".toList [spoonToRaw spoonRecEx]
        (some "protein".toList) =
      ([spoonToRaw spoonRecEx] : List (RawRecipe ℚ)).enum.map (fun p =>
        { score := specCombinedScore zeroEnvQ.mlog
            (specCoverage p.2 (extractQueryTokens "beans".toList))
            (specSimilarity zeroEnvQ.msqrt
              (rerankEmbedded zeroEnvQ "beans".toList
                (([spoonToRaw spoonRecEx] : List (RawRecipe ℚ)).map
                  buildRecipeText)).1
              (rerankEmbedded zeroEnvQ "beans".toList
                (([spoonToRaw spoonRecEx] : List (RawRecipe ℚ)).map
                  buildRecipeText)).2.1 p.1)
            (nutrientValue p.2 (some "protein".toList)),
          nutrValue := nutrientValue p.2 (some "protein".toList),
          recipe := p.2 }) ∧
    (∀ raw : RawRecipe ℚ, nutrientValue raw none = 0) ∧
    (∀ (raw : RawRecipe ℚ) (f : Str) (fld : RawField),
      nutrientFieldMap (lowerStr f) = some fld → rawField raw fld = none →
        nutrientValue raw (some f) = 0)) :=
  ⟨rfl,
    c5_scorer_formula_and_order zeroEnvQ "beans".toList
      [spoonToRaw spoonRecEx] (some "protein".toList) 5 rfl⟩

/-- Witness for C8: the message "please suggest something" with no
inventory fails query formation and ends as an empty normal result with
the `NO_VALID_QUERY` marker persisted. -/
theorem c8_witness :
    containsClearPhrase "please suggest something".toList = false ∧
    detailGuard ([] : List (Recipe ℚ)) "please suggest something".toList =
      false ∧
    inventoryItems (mergeExtra
      ((constCollab emptyAnalysis []).analyse
        ((none : Option UserProfile).getD (freshUser "u".toList))
        "please suggest something".toList) []).inventory = [] ∧
    (msgKeywords "please suggest something".toList).length < 2 ∧
    (buildRecipeQuery (mergeExtra
      ((constCollab emptyAnalysis []).analyse
        ((none : Option UserProfile).getD (freshUser "u".toList))
        "please suggest something".toList) [])
      "please suggest something".toList = none ∧
    handleMessage (constCollab emptyAnalysis []) none []
        "u".toList "please suggest something".toList [] =
      .ok { recipes := [],
            analysis := .normalNoQuery (mergeExtra
              ((constCollab emptyAnalysis []).analyse
                ((none : Option UserProfile).getD (freshUser "u".toList))
                "please suggest something".toList) []),
            user := updateProfile
              ((none : Option UserProfile).getD (freshUser "u".toList))
              (mergeExtra
                ((constCollab emptyAnalysis []).analyse
                  ((none : Option UserProfile).getD (freshUser "u".toList))
                  "please suggest something".toList) []),
            savedProfile := updateProfile
              ((none : Option UserProfile).getD (freshUser "u".toList))
              (mergeExtra
                ((constCollab emptyAnalysis []).analyse
                  ((none : Option UserProfile).getD (freshUser "u".toList))
                  "please suggest something".toList) []),
            savedContext := "NO_VALID_QUERY".toList,
            newLast := [] }) :=
  ⟨by decide, by decide, by decide, by decide,
    c8_query_formation_failure (constCollab emptyAnalysis []) none []
      "u".toList "please suggest something".toList []
      (by decide) (by decide) (by decide) (by decide)⟩

/-- Witness for C10: an inventory-clear message empties the stored
inventory and ends the turn with the tagged analysis. -/
theorem c10_witness :
    containsClearPhrase "please clear my inventory".toList = true ∧
    handleMessage (constCollab emptyAnalysis []) (some milkUser) []
        "u".toList "please clear my inventory".toList [] =
      .ok { recipes := [], analysis := .inventoryCleared,
            user := { (some milkUser).getD (freshUser "u".toList) with
              inventory := ∅ },
            savedProfile := { (some milkUser).getD (freshUser "u".toList) with
              inventory := ∅ },
            savedContext := "INVENTORY_CLEARED".toList,
            newLast := [] } :=
  ⟨by decide,
    (c10_inventory_lifecycle (constCollab emptyAnalysis []) (some milkUser)
      [] "u".toList "please clear my inventory".toList []).1 (by decide)⟩

end RecipeRec
